import Mathlib

/-!
Shallow embedding of `plots.py`: a tool that inventories a directory tree of
field-survey captures organized as `PlotID/YYYYMMDD/…`, builds a tabular index
of visits, and enriches each visit with camera/firmware metadata read from
embedded image tags via an external tag-reading process (`exiftool`).

Modelling conventions:
  * the filesystem is a tree of directories (`Dir`), each holding plain file
    names and named subdirectories; path strings are joined with `"/"`;
  * the external tool is an oracle `ExifEnv` mapping the argument list of one
    invocation to its outcome (an exception, or a return code plus stdout);
  * JSON scalar values are `JVal` (string or integer); pandas missing values
    (`NaN` / Python `None`) are `Option.none`;
  * pandas DataFrames are lists of rows; where the set of columns matters
    (`compare_band_assignments`) an explicit column list is carried and column
    access on a missing column is an error (`Except`), mirroring `KeyError`.
-/

namespace Plots

/-- A JSON / tag scalar value as produced by the external tool. -/
inductive JVal where
  | jstr : String → JVal
  | jint : Int → JVal
  deriving DecidableEq, Repr

/-- A calendar date, as parsed from a `YYYYMMDD` directory name. -/
structure Date where
  year : Nat
  month : Nat
  day : Nat
  deriving DecidableEq, Repr

/-- Chronological order on dates (lexicographic on year, month, day),
matching comparison of pandas timestamps. -/
def Date.le (a b : Date) : Bool :=
  a.year < b.year ∨
    (a.year = b.year ∧ (a.month < b.month ∨
      (a.month = b.month ∧ a.day ≤ b.day)))

/-!
### Character-list string helpers

Core `String` primitives such as `endsWith`, `splitOn` and `toNat?` unfold
through `Substring` position loops that do not reduce definitionally, so the
embedding implements the Python string operations it needs directly on the
character list; each helper is the standard meaning of the corresponding
`str` method.
-/

/-- `s.endswith(suffix)`. -/
def strEndsWith (s suffix : String) : Bool :=
  decide (s.data.drop (s.data.length - suffix.data.length) = suffix.data)

/-- `s.startswith(pre)`. -/
def strStartsWith (s pre : String) : Bool :=
  decide (s.data.take pre.data.length = pre.data)

/-- ASCII lower-casing of one character. -/
def lowerChar (c : Char) : Char :=
  if 65 ≤ c.toNat ∧ c.toNat ≤ 90 then Char.ofNat (c.toNat + 32) else c

/-- `s.lower()` (ASCII). -/
def strToLower (s : String) : String := ⟨s.data.map lowerChar⟩

/-- `s.split(sep)` for a one-character separator, on character lists. -/
def splitOnChar (sep : Char) : List Char → List (List Char)
  | [] => [[]]
  | c :: rest =>
    match splitOnChar sep rest with
    | [] => [[]]
    | h :: t => if c = sep then [] :: h :: t else (c :: h) :: t

/-- `s.split(sep)` for a one-character separator. -/
def strSplitOn (s : String) (sep : Char) : List String :=
  (splitOnChar sep s.data).map fun l => ⟨l⟩

/-- `s.replace(pat, repl)` (all occurrences, left to right), with fuel. -/
def replaceAux (pat repl : List Char) : Nat → List Char → List Char
  | _, [] => []
  | 0, l => l
  | fuel + 1, c :: rest =>
    if (c :: rest).take pat.length = pat ∧ pat ≠ [] then
      repl ++ replaceAux pat repl fuel ((c :: rest).drop pat.length)
    else c :: replaceAux pat repl fuel rest

/-- `s.replace(pat, repl)` (all occurrences, left to right). -/
def strReplace (s pat repl : String) : String :=
  ⟨replaceAux pat.data repl.data s.data.length s.data⟩

/-- Lexicographic code-point order on character lists. -/
def charListLe : List Char → List Char → Bool
  | [], _ => true
  | _ :: _, [] => false
  | a :: as, b :: bs =>
    if a = b then charListLe as bs else decide (a.toNat < b.toNat)

/-- Lexicographic code-point order on strings. -/
def strLe (a b : String) : Bool := charListLe a.data b.data

/-- ASCII decimal digit test. -/
def isDigitChar (c : Char) : Bool := 48 ≤ c.toNat ∧ c.toNat ≤ 57

/-- Parse a non-empty all-digit character list as a decimal number. -/
def digitsToNat? (l : List Char) : Option Nat :=
  if l ≠ [] ∧ l.all isDigitChar then
    some (l.foldl (fun acc c => acc * 10 + (c.toNat - 48)) 0)
  else none

/-- Days in a month, with the Gregorian leap-year rule. -/
def daysInMonth (y m : Nat) : Nat :=
  if m = 2 then
    if (y % 4 = 0 ∧ y % 100 ≠ 0) ∨ y % 400 = 0 then 29 else 28
  else if m = 4 ∨ m = 6 ∨ m = 9 ∨ m = 11 then 30
  else 31

/-- Plain Gregorian calendar validity (the spec's "valid calendar date"),
with no bound on the year. -/
def isCalendarDate (y m d : Nat) : Bool :=
  1 ≤ m ∧ m ≤ 12 ∧ 1 ≤ d ∧ d ≤ daysInMonth y m

/-- The earliest midnight representable as a pandas `Timestamp`
(`Timestamp.min` is 1677-09-21 00:12:43.145224193, so the first whole
date is 1677-09-22). -/
def pandasMinDate : Date := ⟨1677, 9, 22⟩

/-- The latest midnight representable as a pandas `Timestamp`
(`Timestamp.max` is 2262-04-11 23:47:16.854775807). -/
def pandasMaxDate : Date := ⟨2262, 4, 11⟩

/-- `pd.to_datetime(s, format='%Y%m%d')` on an 8-digit string: split as
4+2+2 digits, validate as a calendar date, and require the resulting
midnight timestamp to lie within the representable pandas `Timestamp`
range (1677-09-22 through 2262-04-11, which also excludes year 0);
`none` models the raised `ValueError` on a non-calendar value and the
raised `OutOfBoundsDatetime` (a `ValueError` subclass, equally caught by
the caller) on an out-of-range one. -/
def toDatetimeYYYYMMDD (s : String) : Option Date :=
  match digitsToNat? (s.data.take 4), digitsToNat? ((s.data.drop 4).take 2),
      digitsToNat? (s.data.drop 6) with
  | some y, some m, some d =>
      if isCalendarDate y m d = true ∧
          Date.le pandasMinDate ⟨y, m, d⟩ = true ∧
          Date.le ⟨y, m, d⟩ pandasMaxDate = true then
        some ⟨y, m, d⟩
      else none
  | _, _, _ => none

/-- The regex `^\d{8}$` from `parse_directory_structure`. -/
def isEightDigits (s : String) : Bool :=
  decide (s.data.length = 8) && s.data.all isDigitChar

/-- A directory node: plain files and named subdirectories.
`Path.iterdir` enumerates in the listed order. -/
inductive Dir where
  | mk : List String → List (String × Dir) → Dir

/-- File names directly inside a directory. -/
def Dir.files : Dir → List String
  | .mk fs _ => fs

/-- Named immediate subdirectories. -/
def Dir.subdirs : Dir → List (String × Dir)
  | .mk _ ds => ds

/-- One row of the visits DataFrame built by `parse_directory_structure`. -/
structure VisitRow where
  plot_id : String
  visit_date : Date
  full_path : String
  deriving DecidableEq, Repr

/-- `parse_directory_structure(base_path)`: for every immediate subdirectory
(the plot), for every immediate subdirectory of that whose name matches
`^\d{8}$`, parse the name as a `YYYYMMDD` date and emit a row; parse failures
print a warning and are skipped.  Files are skipped by the `is_dir()` checks,
which the `Dir` model reflects by only iterating `subdirs`. -/
def parse_directory_structure (base_path : String) (root : Dir) : List VisitRow :=
  root.subdirs.flatMap fun pd =>
    pd.2.subdirs.filterMap fun dd =>
      if isEightDigits dd.1 then
        (toDatetimeYYYYMMDD dd.1).map fun dt =>
          { plot_id := pd.1
            visit_date := dt
            full_path := base_path ++ "/" ++ pd.1 ++ "/" ++ dd.1 }
      else none

/-- `filter_date(df, start, end)`: if both bounds are `None` return the frame
unchanged; otherwise keep the rows passing the conjunction of the bound
masks (`visit_date >= start`, `visit_date <= end`), each applied only when
its bound is present. -/
def filter_date (df : List VisitRow) (start stop : Option Date) : List VisitRow :=
  if start = none ∧ stop = none then df
  else df.filter fun r =>
    (match start with
     | none => true
     | some s => Date.le s r.visit_date) &&
    (match stop with
     | none => true
     | some e => Date.le r.visit_date e)

/-! ## MetadataExtractor: `extract_tif_metadata` -/

/-- A JSON object (one per-file tag record in the tool's `-j` output);
keys are tag names.  A missing key models both an absent tag. -/
abbrev JRecord := List (String × JVal)

/-- `dict.get(k)` / `metadata.get(k, None)` on a record. -/
def JRecord.get (r : JRecord) (k : String) : Option JVal :=
  (r.find? fun p => p.1 = k).map (·.2)

/-- The stdout of one tool invocation, classified by what the caller does
with it: blank after `strip()`, non-blank but not valid JSON, or a JSON
array of per-file records. -/
inductive Stdout where
  | blank : Stdout
  | malformed : String → Stdout
  | records : List JRecord → Stdout
  deriving DecidableEq, Repr

/-- `not result.stdout.strip()`. -/
def Stdout.isBlank : Stdout → Bool
  | .blank => true
  | _ => false

/-- Outcome of one `subprocess.run(['exiftool'] ++ args, …)` call: either an
exception (`SubprocessError`, timeout, `FileNotFoundError`), or a completed
process with a return code and stdout. -/
inductive ExifOut where
  | exn : ExifOut
  | ret : Int → Stdout → ExifOut
  deriving DecidableEq, Repr

/-- The external-tool oracle: argument list (after `exiftool`) ↦ outcome. -/
abbrev ExifEnv := List String → ExifOut

/-- The filesystem oracle: absolute path string ↦ directory tree, `none`
when no such directory exists (`Path.exists()` is false). -/
abbrev FS := String → Option Dir

/-- Join a directory path and an entry name. -/
def pjoin (p n : String) : String := p ++ "/" ++ n

/-- `Path(p).name`: the last non-empty `/`-separated component. -/
def basename (p : String) : String :=
  ((strSplitOn p '/').filter fun s => s ≠ "").getLast?.getD ""

/-- `f.name.endswith('_cog.tif')`: since the suffix contains no `/`, testing
the full path is equivalent to testing the name. -/
def isCog (p : String) : Bool := strEndsWith p "_cog.tif"

/-- `path.glob('*.tif')` (non-recursive, case-sensitive), returning joined
paths in directory order; an absent directory yields no matches. -/
def globTif (fs : FS) (p : String) : List String :=
  match fs p with
  | none => []
  | some d => (d.files.filter fun n => strEndsWith n ".tif").map (pjoin p)

mutual

/-- `path.glob('**/*.tif')`: this directory's matches, then each
subdirectory's recursively, in directory order. -/
def rglobTif (d : Dir) (p : String) : List String :=
  match d with
  | .mk files subdirs =>
    (files.filter fun n => strEndsWith n ".tif").map (pjoin p) ++
      rglobTifList subdirs p

/-- Recursive glob over a subdirectory list, in listed order. -/
def rglobTifList (l : List (String × Dir)) (p : String) : List String :=
  match l with
  | [] => []
  | (n, d) :: rest => rglobTif d (pjoin p n) ++ rglobTifList rest p

end

/-- The three-stage file search of `extract_tif_metadata`: the directory
itself, then the four conventional subdirectories (accumulating), then a
recursive search capped after `-cog` filtering at 3 files. -/
def findTifFiles (fs : FS) (dp : String) : List String :=
  let tif_files := (globTif fs dp).filter fun f => !isCog f
  if tif_files.isEmpty then
    let tif_files :=
      ["imagery", "rgb", "multispec", "level0_raw"].foldl
        (fun acc subdir =>
          if (fs (pjoin dp subdir)).isSome then
            acc ++ ((globTif fs (pjoin dp subdir)).filter fun f => !isCog f)
          else acc)
        tif_files
    if tif_files.isEmpty then
      let all_tifs := match fs dp with
        | none => []
        | some d => rglobTif d dp
      (all_tifs.filter fun f => !isCog f).take 3
    else tif_files
  else tif_files

/-- Mapping field name ↦ value-or-absent, as returned by
`extract_tif_metadata`. -/
abbrev SRecord := List (String × Option JVal)

/-- `{field: None for field in fields}`. -/
def allNone (fields : List String) : SRecord :=
  fields.map fun f => (f, none)

/-- `extract_tif_metadata(directory_path, fields)`: locate a TIF via
`findTifFiles`; with none found return all fields absent; otherwise invoke
the tool on the first file with `-j`; on a zero return code and non-blank
stdout parse the JSON and project the requested fields from the first
record, adding `metadata_source`; any failure (exception, non-zero exit,
blank stdout, unparsable JSON, empty record list) returns all fields
absent. -/
def extract_tif_metadata (env : ExifEnv) (fs : FS) (directory_path : String)
    (fields : List String) : SRecord :=
  match findTifFiles fs directory_path with
  | [] => allNone fields
  | first_tif :: _ =>
    match env ["-j", first_tif] with
    | .exn => allNone fields
    | .ret rc out =>
      if rc = 0 ∧ !out.isBlank then
        match out with
        | .records (m :: _) =>
            (fields.map fun f => (f, m.get f)) ++
              [("metadata_source", some (.jstr (basename first_tif)))]
        | _ => allNone fields
      else allNone fields

/-- The failure cases of one tool invocation that `extract_tif_metadata`
degrades to an all-absent result: a raised exception, a non-zero return
code, blank stdout, unparsable output, or an empty record array. -/
def toolFailed : ExifOut → Bool
  | .exn => true
  | .ret rc out =>
      rc ≠ 0 || out.isBlank ||
        (match out with
         | .records rs => rs.isEmpty
         | .malformed _ => true
         | .blank => true)

/-! ## BandExtractor: `extract_multispec_bands` -/

/-- The module-level default field list. -/
def DEFAULT_FIELDS : List String :=
  ["FileName", "BandName", "CentralWavelength", "WavelengthFWHM"]

/-- The fixed priority list of candidate multispectral directories. -/
def multispecPaths (dp : String) : List String :=
  [pjoin (pjoin (pjoin dp "imagery") "multispec") "level0_raw",
   pjoin (pjoin dp "imagery") "multispec",
   pjoin (pjoin dp "multispec") "level0_raw",
   pjoin dp "multispec",
   dp]

/-- The first candidate path that exists, with its directory tree. -/
def chooseValidPath (fs : FS) (dp : String) : Option (String × Dir) :=
  (multispecPaths dp).findSome? fun p => (fs p).map fun d => (p, d)

/-- The `*_{i}.tif` pattern stage: for `i` from 1 to `max_band_number`,
accumulate the directory's matches of `glob(f"*_{i}.tif")` (suffix match,
since the pattern's literal tail contains the separator). -/
def patternBandFiles (d : Dir) (p : String) (max_band_number : Nat) : List String :=
  (List.range' 1 max_band_number).flatMap fun i =>
    (d.files.filter fun n => strEndsWith n ("_" ++ toString i ++ ".tif")).map (pjoin p)

mutual

/-- `os.walk` top-down: each directory contributes `(path, depth, files)`,
the root first, then each subdirectory's subtree in listed order. -/
def walkPairs (d : Dir) (p : String) (depth : Nat) :
    List (String × Nat × List String) :=
  match d with
  | .mk files subdirs => (p, depth, files) :: walkPairsList subdirs p depth

/-- The walk over a subdirectory list, in listed order. -/
def walkPairsList (l : List (String × Dir)) (p : String) (depth : Nat) :
    List (String × Nat × List String) :=
  match l with
  | [] => []
  | (n, d) :: rest => walkPairs d (pjoin p n) (depth + 1) ++ walkPairsList rest p depth

end

/-- The inner file loop of the fallback walk: append the lowercase-`.tif`,
non-`_cog.tif` files of one directory, breaking once 11 are collected. -/
def collectWalkFiles (root : String) : List String → List String → List String
  | [], acc => acc
  | f :: rest, acc =>
    if strEndsWith (strToLower f) ".tif" ∧ ¬(strEndsWith (strToLower f) "_cog.tif") then
      let acc := acc ++ [pjoin root f]
      if acc.length ≥ 11 then acc else collectWalkFiles root rest acc
    else collectWalkFiles root rest acc

/-- The outer walk loop of the fallback: visit directories in walk order,
collecting only from those at depth ≤ 2, breaking once 11 files are
collected. -/
def walkCollect : List (String × Nat × List String) → List String → List String
  | [], acc => acc
  | (root, depth, files) :: rest, acc =>
    if acc.length ≥ 11 then acc
    else
      let acc := if depth ≤ 2 then collectWalkFiles root files acc else acc
      walkCollect rest acc

/-- `str()` of a `SourceFile` tag value for `Path(...)`. -/
def jvalPathStr : Option JVal → String
  | none => ""
  | some (.jstr s) => s
  | some (.jint n) => toString n

/-- The `{filename, <requested fields>}` record built for one per-file tag
record: the basename of `SourceFile`, then each requested field's value. -/
def mkBandData (fields : List String) (m : JRecord) : SRecord :=
  ("filename", some (.jstr (basename (jvalPathStr (m.get "SourceFile"))))) ::
    fields.map fun f => (f, m.get f)

/-- Python-dict insertion: replace the value at an existing key in place,
else append at the end (insertion order preserved on overwrite). -/
def insertBand : List (JVal × SRecord) → JVal → SRecord → List (JVal × SRecord)
  | [], k, v => [(k, v)]
  | (k', v') :: rest, k, v =>
      if k' = k then (k', v) :: rest else (k', v') :: insertBand rest k v

/-- The record-organizing loop: records lacking `RigCameraIndex` are
skipped; the rest are keyed by it, later records overwriting earlier
ones. -/
def organizeBands (fields : List String) (rs : List JRecord) : List (JVal × SRecord) :=
  rs.foldl
    (fun bands_metadata m =>
      match m.get "RigCameraIndex" with
      | none => bands_metadata
      | some rig_index => insertBand bands_metadata rig_index (mkBandData fields m))
    []

/-- The band-file location stage of `extract_multispec_bands`: in the first
existing candidate directory, collect `*_{i}.tif` pattern matches, falling
back to the depth-≤2 walk capped at 11 files; empty when no candidate
directory exists or nothing is found (the function's two early `{}`
returns, which precede any tool call). -/
def locateBandFiles (fs : FS) (dp : String) (max_band_number : Nat) : List String :=
  match chooseValidPath fs dp with
  | none => []
  | some (valid_path, d) =>
    let band_files := patternBandFiles d valid_path max_band_number
    if band_files.isEmpty then walkCollect (walkPairs d valid_path 0) []
    else band_files

/-- `extract_multispec_bands(directory_path, fields, max_band_number)`,
returning the band mapping together with the trace of tool invocations
(each an argument list).  Control flow follows the source: locate band
files; if any were found, run a single-file probe, then (only if the probe
exits 0) one batch call on all files (on a failing probe, a `-ver`
diagnostic call); all failures return the empty mapping. -/
def extract_multispec_bands (env : ExifEnv) (fs : FS) (directory_path : String)
    (fields : List String) (max_band_number : Nat) :
    List (JVal × SRecord) × List (List String) :=
  match locateBandFiles fs directory_path max_band_number with
  | [] => ([], [])
  | first_file :: rest =>
      let file_paths := first_file :: rest
      match env ["-j", first_file] with
      | .exn => ([], [["-j", first_file]])
      | .ret rc _ =>
        if rc ≠ 0 then
          ([], [["-j", first_file], ["-ver"]])
        else
          let trace := [["-j", first_file], "-j" :: file_paths]
          match env ("-j" :: file_paths) with
          | .exn => ([], trace)
          | .ret rc2 out2 =>
            if rc2 ≠ 0 ∨ out2.isBlank then ([], trace)
            else
              match out2 with
              | .records metadata_list => (organizeBands fields metadata_list, trace)
              | _ => ([], trace)

/-! ## BandAnalyzer row stage: `extract_multispec_analysis` -/

/-- A cell value of the analysis DataFrame. -/
inductive PVal where
  | pstr : String → PVal
  | pdate : Date → PVal
  | pjval : JVal → PVal
  | pnone : PVal
  deriving DecidableEq, Repr

/-- Lift an optional tag value into a DataFrame cell. -/
def pvalOf : Option JVal → PVal
  | none => .pnone
  | some v => .pjval v

/-- `dict.get` on a band-data record (two levels of absence flattened,
as in Python where both yield `None`). -/
def SRecord.get (r : SRecord) (f : String) : Option JVal :=
  (((r.find? fun p => p.1 = f).map (·.2)).getD none)

/-- `str(rig_index)` inside the `f"Band{rig_index}_"` prefix. -/
def jvalStr : JVal → String
  | .jstr s => s
  | .jint n => toString n

/-- One output record of the analysis DataFrame. -/
abbrev ARecord := List (String × PVal)

/-- The record built for one visit row: the plot columns; then, only when
bands were found, `Software`/`SwVersion` lifted from the first-iterated
band, and a `Band{index}_{field}` column per band and requested field. -/
def analysisRecord (env : ExifEnv) (fs : FS) (fields : List String)
    (max_band_number : Nat) (row : VisitRow) : ARecord :=
  let bands_metadata :=
    (extract_multispec_bands env fs row.full_path fields max_band_number).1
  let record : ARecord :=
    [("plot_id", .pstr row.plot_id),
     ("visit_date", .pdate row.visit_date),
     ("full_path", .pstr row.full_path)]
  if bands_metadata.isEmpty then record
  else
    let first_band : SRecord := ((bands_metadata.head?).map (·.2)).getD []
    let record := record ++
      [("Software", pvalOf (SRecord.get first_band "Software")),
       ("SwVersion", pvalOf (SRecord.get first_band "SwVersion"))]
    record ++ bands_metadata.flatMap fun b =>
      (fields.filter fun f => f ≠ "RigCameraIndex").map fun f =>
        ("Band" ++ jvalStr b.1 ++ "_" ++ f, pvalOf (SRecord.get b.2 f))

/-- `extract_multispec_analysis(plot_df, fields, max_band_number)`: one
record appended per input row, in input order. -/
def extract_multispec_analysis (env : ExifEnv) (fs : FS) (plot_df : List VisitRow)
    (fields : List String) (max_band_number : Nat) : List ARecord :=
  plot_df.map (analysisRecord env fs fields max_band_number)

/-- Column lookup on an analysis record (`none` when the key is absent,
i.e. the DataFrame cell is NaN). -/
def ARecord.get (r : ARecord) (k : String) : Option PVal :=
  (r.find? fun p => p.1 = k).map (·.2)

/-- Lookup in the band mapping returned by `extract_multispec_bands`. -/
def bandsGet (m : List (JVal × SRecord)) (k : JVal) : Option SRecord :=
  (m.find? fun p => p.1 = k).map (·.2)

/-! ## BandAnalyzer: `compare_band_assignments` and `create_band_table`

A DataFrame here carries its column list explicitly, because
`compare_band_assignments` tests column membership and raises `KeyError`
(modelled as `Except.error`) on access to an absent column.  `Series.mode()`
of an all-null series is empty, so the `.iloc[0]` after it raises
`IndexError`, also modelled as `Except.error`. -/

/-- A DataFrame of tag-valued cells: explicit columns plus rows. -/
structure DFrame where
  cols : List String
  rows : List SRecord

deriving instance DecidableEq for Except

/-- Stable insertion into a `le`-sorted list, after existing equals. -/
def insertLe {α : Type} (le : α → α → Bool) (x : α) : List α → List α
  | [] => [x]
  | y :: ys => if le y x then y :: insertLe le x ys else x :: y :: ys

/-- Stable insertion sort by a total `le`. -/
def sortLe {α : Type} (le : α → α → Bool) (xs : List α) : List α :=
  xs.foldl (fun acc x => insertLe le x acc) []

/-- Distinct elements in first-seen order (`Series.unique`). -/
def dedupSeen {α : Type} [DecidableEq α] (xs : List α) : List α :=
  xs.foldl (fun acc x => if x ∈ acc then acc else acc ++ [x]) []

/-- A total order on tag values (integers before strings), standing in for
the value ordering pandas uses when sorting. -/
def jvalLe : JVal → JVal → Bool
  | .jint a, .jint b => a ≤ b
  | .jstr a, .jstr b => strLe a b
  | .jint _, .jstr _ => true
  | .jstr _, .jint _ => false

/-- `Series.value_counts()`: occurrence counts of the non-null values,
sorted by count descending (ties in first-seen order). -/
def valueCounts (xs : List (Option JVal)) : List (JVal × Nat) :=
  let vals := xs.filterMap id
  sortLe (fun a b => b.2 ≤ a.2)
    ((dedupSeen vals).map fun v => (v, vals.count v))

/-- `Series.mode().iloc[0]`: the least of the most frequent non-null values;
an all-null (or empty) series has an empty mode, so `.iloc[0]` raises. -/
def modeFirst (xs : List (Option JVal)) : Except Unit JVal :=
  let vals := xs.filterMap id
  let distinct := dedupSeen vals
  let maxc := (distinct.map fun v => vals.count v).foldl max 0
  match sortLe jvalLe (distinct.filter fun v => vals.count v = maxc) with
  | [] => .error ()
  | m :: _ => .ok m

/-- One row of the summary DataFrame built by `compare_band_assignments`. -/
structure SummaryRow where
  software : JVal
  rigCameraIndex : String
  bandName : JVal
  count : Nat
  centralWavelength : Option JVal
  wavelengthFWHM : Option JVal
  deriving DecidableEq, Repr

/-- `subframe[c]` as a series: the column's cells over the given rows;
an absent column raises `KeyError`. -/
def seriesOf (df : DFrame) (rows : List SRecord) (c : String) :
    Except Unit (List (Option JVal)) :=
  if c ∈ df.cols then .ok (rows.map fun r => SRecord.get r c) else .error ()

/-- The summary row built for one `(version, band column, band name)`
triple: the modal wavelength and FWHM over the version's rows carrying
that band name, each `None` only when that row set is empty. -/
def summaryRowForName (df : DFrame) (version_rows : List SRecord) (version : JVal)
    (band_col band_idx : String) (band_name : JVal) (cnt : Nat) :
    Except Unit SummaryRow := do
  let wavelength_col := "Band" ++ band_idx ++ "_CentralWavelength"
  let fwhm_col := "Band" ++ band_idx ++ "_WavelengthFWHM"
  let matching := version_rows.filter fun r => SRecord.get r band_col = some band_name
  let wlSeries ← seriesOf df matching wavelength_col
  let wavelength ←
    if wlSeries.isEmpty then pure (none : Option JVal)
    else do
      let m ← modeFirst wlSeries
      pure (some m)
  let fwhmSeries ← seriesOf df matching fwhm_col
  let fwhm ←
    if fwhmSeries.isEmpty then pure (none : Option JVal)
    else do
      let m ← modeFirst fwhmSeries
      pure (some m)
  pure { software := version, rigCameraIndex := band_idx, bandName := band_name,
         count := cnt, centralWavelength := wavelength, wavelengthFWHM := fwhm }

/-- The summary rows one `Band{i}_BandName` column contributes for one
firmware version: one per band name in its `value_counts` (all of which
pass the `notna` check, `value_counts` having dropped nulls already). -/
def summaryRowsForCol (df : DFrame) (version_rows : List SRecord) (version : JVal)
    (band_col : String) : Except Unit (List SummaryRow) := do
  let band_idx := strReplace ((strSplitOn band_col '_').headD "") "Band" ""
  let vcs := valueCounts (version_rows.map fun r => SRecord.get r band_col)
  vcs.mapM fun p =>
    summaryRowForName df version_rows version band_col band_idx p.1 p.2

/-- The `sort_values(['Software', 'RigCameraIndex'])` key order. -/
def summaryLe (a b : SummaryRow) : Bool :=
  if a.software = b.software then strLe a.rigCameraIndex b.rigCameraIndex
  else jvalLe a.software b.software

/-- `compare_band_assignments(df)`: with no `Software` column, log and
return an empty frame; otherwise, for each firmware version (non-null
`Software` values in first-seen order) and each `Band{i}_BandName` column,
emit one summary row per observed band name, then stably sort by
`(Software, RigCameraIndex)`. -/
def compare_band_assignments (df : DFrame) : Except Unit (List SummaryRow) :=
  if "Software" ∉ df.cols then .ok []
  else do
    let versions :=
      dedupSeen ((df.rows.map fun r => SRecord.get r "Software").filterMap id)
    let band_cols := df.cols.filter fun c =>
      strStartsWith c "Band" ∧ strEndsWith c "_BandName"
    let nested ← versions.mapM fun version => do
      let version_rows := df.rows.filter fun r =>
        SRecord.get r "Software" = some version
      let colRows ← band_cols.mapM fun band_col =>
        summaryRowsForCol df version_rows version band_col
      pure colRows.flatten
    let summary_data := nested.flatten
    if summary_data.isEmpty then pure summary_data
    else pure (sortLe summaryLe summary_data)

/-- The grid produced by one `pivot_table` call: sorted index and columns,
plus the present (non-NaN) cells. -/
structure PivotFrame where
  index : List JVal
  cols : List String
  cells : List ((JVal × String) × JVal)
  deriving DecidableEq, Repr

/-- Grid lookup; `none` is a NaN hole. -/
def pivotCell (pf : PivotFrame) (v : JVal) (c : String) : Option JVal :=
  (pf.cells.find? fun e => e.1 = (v, c)).map (·.2)

/-- `pivot_table(index='Software', columns='RigCameraIndex', values=…,
aggfunc=lambda x: x.iloc[0] if len(x) > 0 else None)`: group by the key
pair, aggregate to the group's first value (then drop all-NaN aggregates,
as `dropna=True` does), and lay out on the sorted key grids. -/
def pivotAgg (summary : List SummaryRow) (value : SummaryRow → Option JVal) :
    PivotFrame :=
  let pairs := dedupSeen (summary.map fun r => (r.software, r.rigCameraIndex))
  let agged := pairs.filterMap fun p =>
    (((summary.filter fun r => (r.software, r.rigCameraIndex) = p).head?).bind
        value).map fun v => (p, v)
  { index := sortLe jvalLe (dedupSeen (agged.map (·.1.1)))
    cols := sortLe strLe (dedupSeen (agged.map (·.1.2)))
    cells := agged }

/-- `str()` of a cell under `astype(str)`: NaN becomes the string `nan`. -/
def astypeStr : Option JVal → String
  | none => "nan"
  | some (.jstr s) => s
  | some (.jint n) => toString n

/-- A cell of the final band table: `raw` for a column the wavelength
formatting never touched, `txt` for a formatted column (`none` is the NaN
produced by index alignment against a missing wavelength row). -/
inductive Cell where
  | raw : Option JVal → Cell
  | txt : Option String → Cell
  deriving DecidableEq, Repr

/-- The final compact band table. -/
structure BandTable where
  index : List JVal
  cols : List String
  cells : List ((JVal × String) × Cell)
  deriving DecidableEq, Repr

/-- Cell lookup on the final table. -/
def tableCell (bt : BandTable) (v : JVal) (c : String) : Option Cell :=
  (bt.cells.find? fun e => e.1 = (v, c)).map (·.2)

/-- `create_band_table(df)`: summarize, return an empty frame on an empty
summary, else pivot band names and wavelengths and overwrite each shared
column with `name.astype(str) + " (" + wavelength.astype(str) + " nm)"`
(string concatenation aligned on the band pivot's index). -/
def create_band_table (df : DFrame) : Except Unit BandTable := do
  let summary ← compare_band_assignments df
  if summary.isEmpty then pure ⟨[], [], []⟩
  else
    let pivot_df := pivotAgg summary fun r => some r.bandName
    let wavelength_df := pivotAgg summary fun r => r.centralWavelength
    let cells := pivot_df.index.flatMap fun v =>
      pivot_df.cols.map fun c =>
        ((v, c),
          if c ∈ wavelength_df.cols then
            if v ∈ wavelength_df.index then
              Cell.txt (some (astypeStr (pivotCell pivot_df v c) ++ " (" ++
                astypeStr (pivotCell wavelength_df v c) ++ " nm)"))
            else Cell.txt none
          else Cell.raw (pivotCell pivot_df v c))
    pure ⟨pivot_df.index, pivot_df.cols, cells⟩

/-!
## Specification-side staging of the MetadataExtractor search

These definitions restate the spec's three-stage description of the file
search (each stage attempted only when every earlier stage found nothing),
to be compared with `findTifFiles` as translated from the source; the
reserved suffix written `-cog` in the spec prose is `_cog.tif`, as the
spec's own example `img_cog.tif` fixes.
-/

/-- Stage 1: the directory itself, non-recursively, excluding files with
the reserved suffix. -/
def tifStage1 (fs : FS) (dp : String) : List String :=
  (globTif fs dp).filter fun f => !isCog f

/-- Stage 2: the fixed subdirectory list `imagery`, `rgb`, `multispec`,
`level0_raw`, accumulating matches across all of them. -/
def tifStage2 (fs : FS) (dp : String) : List String :=
  ["imagery", "rgb", "multispec", "level0_raw"].flatMap fun subdir =>
    if (fs (pjoin dp subdir)).isSome then
      (globTif fs (pjoin dp subdir)).filter fun f => !isCog f
    else []

/-- Stage 3: the recursive search, excluding the reserved suffix, capped at
the first 3 matches. -/
def tifStage3 (fs : FS) (dp : String) : List String :=
  ((match fs dp with
    | none => []
    | some d => rglobTif d dp).filter fun f => !isCog f).take 3

/-- The claim's staged search: stage 1, else stage 2, else stage 3. -/
def findTifFilesSpec (fs : FS) (dp : String) : List String :=
  if tifStage1 fs dp ≠ [] then tifStage1 fs dp
  else if tifStage2 fs dp ≠ [] then tifStage2 fs dp
  else tifStage3 fs dp

/-! ## Concrete instances (used by witnesses and counterexamples) -/

/-- The §8 example tree: `PlotA/20230101`, `PlotA/20230615`, `PlotB/badname`. -/
def wRoot : Dir :=
  .mk []
    [("PlotA", .mk [] [("20230101", .mk [] []), ("20230615", .mk [] [])]),
     ("PlotB", .mk [] [("badname", .mk [] [])])]

/-- A visit directory `d` holding two band files. -/
def wDir : Dir := .mk ["cam_1.tif", "cam_2.tif", "notes.txt"] []

/-- A filesystem containing only `d`. -/
def wFS : FS := fun p => if p = "d" then some wDir else none

/-- A filesystem whose only directory `x` holds only a `-cog` variant. -/
def wCogFS : FS := fun p =>
  if p = "x" then some (.mk ["img_cog.tif"] []) else none

/-- A tool oracle answering the probe and the batch, both successfully. -/
def wEnv : ExifEnv := fun args =>
  if args = ["-j", "d/cam_1.tif"] then
    .ret 0 (.records [[("SourceFile", .jstr "d/cam_1.tif")]])
  else
    .ret 0 (.records
      [[("SourceFile", .jstr "d/cam_1.tif"), ("RigCameraIndex", .jint 0),
        ("BandName", .jstr "Blue")],
       [("SourceFile", .jstr "d/cam_2.tif"), ("RigCameraIndex", .jint 1),
        ("BandName", .jstr "Red")]])

/-- A batch record list with a record lacking the index tag and two records
colliding on index 0. -/
def wDupRecs : List JRecord :=
  [[("SourceFile", .jstr "d/cam_1.tif"), ("RigCameraIndex", .jint 0),
    ("BandName", .jstr "Blue")],
   [("SourceFile", .jstr "d/notag.tif"), ("BandName", .jstr "NoIndex")],
   [("SourceFile", .jstr "d/cam_2.tif"), ("RigCameraIndex", .jint 0),
    ("BandName", .jstr "Red")]]

/-- A tool oracle whose batch answer is `wDupRecs`. -/
def wEnv2 : ExifEnv := fun args =>
  if args = ["-j", "d/cam_1.tif"] then
    .ret 0 (.records [[("SourceFile", .jstr "d/cam_1.tif")]])
  else .ret 0 (.records wDupRecs)

/-- An analysis DataFrame with two firmware versions observing disjoint
band indices (so the pivot grid has holes). -/
def wBandDf : DFrame :=
  { cols := ["Software", "Band0_BandName", "Band0_CentralWavelength",
             "Band0_WavelengthFWHM", "Band1_BandName",
             "Band1_CentralWavelength", "Band1_WavelengthFWHM"]
    rows :=
      [[("Software", some (.jstr "v1")), ("Band0_BandName", some (.jstr "Red")),
        ("Band0_CentralWavelength", some (.jstr "660")),
        ("Band0_WavelengthFWHM", some (.jstr "20"))],
       [("Software", some (.jstr "v2")), ("Band1_BandName", some (.jstr "Green")),
        ("Band1_CentralWavelength", some (.jstr "550")),
        ("Band1_WavelengthFWHM", some (.jstr "20"))]] }

/-- A DataFrame with no `Software` column. -/
def wNoSwDf : DFrame :=
  { cols := ["plot_id", "visit_date"]
    rows := [[("plot_id", some (.jstr "PlotA"))]] }

/-- The first summary row `compare_band_assignments` produces on `wBandDf`. -/
def wSummaryRow1 : SummaryRow :=
  ⟨.jstr "v1", "0", .jstr "Red", 1, some (.jstr "660"), some (.jstr "20")⟩

/-- The second summary row `compare_band_assignments` produces on `wBandDf`. -/
def wSummaryRow2 : SummaryRow :=
  ⟨.jstr "v2", "1", .jstr "Green", 1, some (.jstr "550"), some (.jstr "20")⟩

/-- The summary `compare_band_assignments` produces on `wBandDf`. -/
def wSummary : List SummaryRow := [wSummaryRow1, wSummaryRow2]

/-- The band table `create_band_table` produces on `wBandDf`. -/
def wBt : BandTable :=
  ⟨[.jstr "v1", .jstr "v2"], ["0", "1"],
   [((.jstr "v1", "0"), .txt (some "Red (660 nm)")),
    ((.jstr "v1", "1"), .txt (some "nan (nan nm)")),
    ((.jstr "v2", "0"), .txt (some "nan (nan nm)")),
    ((.jstr "v2", "1"), .txt (some "Green (550 nm)"))]⟩

/-- A concrete visit row pointing at `d`. -/
def wRow : VisitRow := ⟨"PlotA", ⟨2023, 1, 1⟩, "d"⟩

/-- A one-visit table pointing at `d`. -/
def wPlotDf : List VisitRow := [wRow]

/-! # Theorems -/

/-- C10: for every input table lacking a `Software`/firmware column,
`compare_band_assignments` returns an empty result (and only logs), rather
than raising: the guard returns the empty frame with no error. -/
theorem c10_no_software_empty (df : DFrame) (h : "Software" ∉ df.cols) :
    compare_band_assignments df = .ok [] := by
  unfold compare_band_assignments
  rw [if_pos h]

/-- Witness for C10 at a frame without a `Software` column. -/
theorem c10_no_software_empty_witness :
    "Software" ∉ wNoSwDf.cols ∧ compare_band_assignments wNoSwDf = .ok [] :=
  ⟨by decide, c10_no_software_empty wNoSwDf (by decide)⟩

/-- C8: `filter_date` returns a subset (sublist) of its input whose every
row satisfies the present bounds inclusively (an omitted bound imposing no
constraint), and with both bounds omitted returns the table unchanged. -/
theorem c8_filter_date_bounds (df : List VisitRow) (start stop : Option Date) :
    (filter_date df start stop).Sublist df ∧
    (∀ r ∈ filter_date df start stop,
      (∀ s, start = some s → Date.le s r.visit_date = true) ∧
      (∀ e, stop = some e → Date.le r.visit_date e = true)) ∧
    filter_date df none none = df := by
  refine ⟨?_, ?_, by simp [filter_date]⟩
  · unfold filter_date
    split
    · exact List.Sublist.refl df
    · exact List.filter_sublist df
  · intro r hr
    unfold filter_date at hr
    split at hr
    · rename_i hboth
      obtain ⟨h1, h2⟩ := hboth
      subst h1; subst h2
      exact ⟨fun s hs => (nomatch hs), fun e he => (nomatch he)⟩
    · have hp := (List.mem_filter.mp hr).2
      rw [Bool.and_eq_true] at hp
      refine ⟨fun s hs => ?_, fun e he => ?_⟩
      · have := hp.1
        rw [hs] at this
        exact this
      · have := hp.2
        rw [he] at this
        exact this

/-- Witness for C8 on a concrete table and bound pair. -/
theorem c8_filter_date_bounds_witness :
    wRow ∈ filter_date wPlotDf (some ⟨2022, 1, 1⟩) (some ⟨2024, 1, 1⟩) ∧
    Date.le ⟨2022, 1, 1⟩ wRow.visit_date = true ∧
    Date.le wRow.visit_date ⟨2024, 1, 1⟩ = true := by
  have hr : wRow ∈
      filter_date wPlotDf (some ⟨2022, 1, 1⟩) (some ⟨2024, 1, 1⟩) := by decide
  have h2 := (c8_filter_date_bounds wPlotDf (some ⟨2022, 1, 1⟩)
      (some ⟨2024, 1, 1⟩)).2.1 _ hr
  exact ⟨hr, h2.1 _ rfl, h2.2 _ rfl⟩

/-- C7: `extract_multispec_analysis` produces exactly one output record per
input row in the original order — the row count is preserved, and the i-th
record carries the i-th input row's plot id, visit date and path (visits
yielding no bands included). -/
theorem c7_row_per_visit (env : ExifEnv) (fs : FS) (plot_df : List VisitRow)
    (fields : List String) (max_band_number : Nat) :
    (extract_multispec_analysis env fs plot_df fields max_band_number).length =
      plot_df.length ∧
    ∀ i (h : i < plot_df.length),
      ∃ rec, (extract_multispec_analysis env fs plot_df fields
          max_band_number)[i]? = some rec ∧
        ARecord.get rec "plot_id" = some (.pstr (plot_df.get ⟨i, h⟩).plot_id) ∧
        ARecord.get rec "visit_date" = some (.pdate (plot_df.get ⟨i, h⟩).visit_date) ∧
        ARecord.get rec "full_path" = some (.pstr (plot_df.get ⟨i, h⟩).full_path) := by
  constructor
  · exact List.length_map _ _
  · intro i h
    refine ⟨analysisRecord env fs fields max_band_number (plot_df.get ⟨i, h⟩), ?_, ?_⟩
    · unfold extract_multispec_analysis
      rw [List.getElem?_map]
      simp [List.getElem?_eq_getElem h]
    · set row := plot_df.get ⟨i, h⟩ with hrow
      unfold analysisRecord
      by_cases hb :
          (extract_multispec_bands env fs row.full_path fields max_band_number).1.isEmpty
      · simp only [hb, if_true]
        exact ⟨rfl, rfl, rfl⟩
      · simp only [hb, if_false]
        refine ⟨?_, ?_, ?_⟩ <;>
          simp [ARecord.get, List.find?_append]

/-- Witness for C7 at a concrete one-row table. -/
theorem c7_row_per_visit_witness :
    (extract_multispec_analysis wEnv wFS wPlotDf DEFAULT_FIELDS 11).length =
      wPlotDf.length ∧
    ∃ rec, (extract_multispec_analysis wEnv wFS wPlotDf DEFAULT_FIELDS 11)[0]? =
        some rec ∧
      ARecord.get rec "plot_id" =
        some (.pstr (wPlotDf.get ⟨0, by decide⟩).plot_id) ∧
      ARecord.get rec "visit_date" =
        some (.pdate (wPlotDf.get ⟨0, by decide⟩).visit_date) ∧
      ARecord.get rec "full_path" =
        some (.pstr (wPlotDf.get ⟨0, by decide⟩).full_path) :=
  ⟨(c7_row_per_visit wEnv wFS wPlotDf DEFAULT_FIELDS 11).1,
   (c7_row_per_visit wEnv wFS wPlotDf DEFAULT_FIELDS 11).2 0 (by decide)⟩

/-- C5: `extract_tif_metadata` returns every requested field mapped to
absent, without raising, both when the three-stage search finds no file and
when the tool invocation on the first found file fails (exception, non-zero
exit, blank or unparsable output, or no record returned). -/
theorem c5_failure_all_absent (env : ExifEnv) (fs : FS) (dp : String)
    (fields : List String)
    (h : findTifFiles fs dp = [] ∨
      ∃ f rest, findTifFiles fs dp = f :: rest ∧ toolFailed (env ["-j", f]) = true) :
    extract_tif_metadata env fs dp fields = allNone fields := by
  unfold extract_tif_metadata
  split
  · rfl
  · rename_i first_tif tail heq
    rcases h with h | ⟨f, rest, hf, hfail⟩
    · rw [h] at heq
      exact absurd heq (by simp)
    · rw [hf] at heq
      injection heq with h1 h2
      subst h1
      split
      · rfl
      · rename_i rc out henv
        rw [henv] at hfail
        split
        · rename_i hcond
          obtain ⟨hrc, hblank⟩ := hcond
          subst hrc
          split
          · simp [toolFailed, Stdout.isBlank] at hfail
          · rfl
        · rfl

/-- Witness for C5: a directory holding only a `_cog.tif` variant in every
searched location yields no file, and all fields come back absent. -/
theorem c5_failure_all_absent_witness :
    findTifFiles wCogFS "x" = [] ∧
    extract_tif_metadata wEnv wCogFS "x" ["Software", "SwVersion"] =
      allNone ["Software", "SwVersion"] :=
  ⟨by decide, c5_failure_all_absent wEnv wCogFS "x" ["Software", "SwVersion"]
    (Or.inl (by decide))⟩

/-- C1 counterexample: on a directory with two located band files and a
fully successful tool, `extract_multispec_bands` makes two tool
invocations — a single-file probe and then the batch — so the tag reader is
not invoked exactly once. -/
theorem c1_counterexample :
    (extract_multispec_bands wEnv wFS "d" DEFAULT_FIELDS 11).2 =
      [["-j", "d/cam_1.tif"], ["-j", "d/cam_1.tif", "d/cam_2.tif"]] ∧
    (extract_multispec_bands wEnv wFS "d" DEFAULT_FIELDS 11).2 ≠
      ["-j" :: locateBandFiles wFS "d" 11] := by
  constructor
  · decide
  · decide

/-- C1 (amended): whenever band files are located and the initial
single-file probe succeeds (exit code 0), `extract_multispec_bands` makes
exactly two tool invocations: the probe on the first located file, then a
single batch call on all located files — never one call per file. -/
theorem c1_probe_then_batch (env : ExifEnv) (fs : FS) (dp : String)
    (fields : List String) (maxn : Nat) (first_file : String)
    (rest : List String) (out : Stdout)
    (hloc : locateBandFiles fs dp maxn = first_file :: rest)
    (hprobe : env ["-j", first_file] = .ret 0 out) :
    (extract_multispec_bands env fs dp fields maxn).2 =
      [["-j", first_file], "-j" :: first_file :: rest] := by
  unfold extract_multispec_bands
  rw [hloc]
  simp only []
  rw [hprobe]
  simp only []
  rw [if_neg (by simp)]
  cases env ("-j" :: first_file :: rest) with
  | exn => rfl
  | ret rc2 out2 =>
    simp only []
    split
    · rfl
    · cases out2 <;> rfl

/-- Witness for C1 (amended) at the concrete two-file directory. -/
theorem c1_probe_then_batch_witness :
    locateBandFiles wFS "d" 11 = ["d/cam_1.tif", "d/cam_2.tif"] ∧
    (extract_multispec_bands wEnv wFS "d" DEFAULT_FIELDS 11).2 =
      [["-j", "d/cam_1.tif"], ["-j", "d/cam_1.tif", "d/cam_2.tif"]] :=
  ⟨by decide,
   c1_probe_then_batch wEnv wFS "d" DEFAULT_FIELDS 11 "d/cam_1.tif"
     ["d/cam_2.tif"] (.records [[("SourceFile", .jstr "d/cam_1.tif")]])
     (by decide) (by decide)⟩

/-- Lookup over a cons cell of the band mapping. -/
theorem bandsGet_cons (x : JVal × SRecord) (m : List (JVal × SRecord)) (k : JVal) :
    bandsGet (x :: m) k = if x.1 = k then some x.2 else bandsGet m k := by
  by_cases h : x.1 = k <;> simp [bandsGet, h]

/-- Lookup after a dict-style insert: the inserted key maps to the new
value, every other key is untouched. -/
theorem bandsGet_insertBand (m : List (JVal × SRecord)) (k' : JVal) (v : SRecord)
    (k : JVal) :
    bandsGet (insertBand m k' v) k = if k = k' then some v else bandsGet m k := by
  induction m with
  | nil =>
    rw [show insertBand [] k' v = [(k', v)] from rfl, bandsGet_cons]
    by_cases h : k = k'
    · rw [if_pos h.symm, if_pos h]
    · rw [if_neg (fun hh : k' = k => h hh.symm), if_neg h]
  | cons a m ih =>
    obtain ⟨ak, av⟩ := a
    simp only [insertBand]
    by_cases h1 : ak = k'
    · rw [if_pos h1, bandsGet_cons, bandsGet_cons]
      subst h1
      by_cases h2 : k = ak
      · subst h2
        simp
      · have hA : ¬(ak = k) := fun hh => h2 hh.symm
        rw [if_neg hA, if_neg (fun hh : k = ak => h2 hh), if_neg hA]
    · rw [if_neg h1, bandsGet_cons, ih, bandsGet_cons]
      by_cases h2 : ak = k
      · subst h2
        rw [if_pos rfl, if_pos rfl, if_neg (fun hh : ak = k' => h1 hh)]
      · rw [if_neg h2, if_neg h2]

/-- One step of the organizing fold: a record with the index tag keyed `k`
overwrites the mapping at `k`; any other record leaves `k` untouched. -/
theorem bandsGet_organizeStep (fields : List String) (acc : List (JVal × SRecord))
    (m : JRecord) (k : JVal) :
    bandsGet
      (match m.get "RigCameraIndex" with
       | none => acc
       | some rig_index => insertBand acc rig_index (mkBandData fields m)) k =
      if m.get "RigCameraIndex" = some k then some (mkBandData fields m)
      else bandsGet acc k := by
  cases hr : m.get "RigCameraIndex" with
  | none => simp
  | some rig =>
    rw [bandsGet_insertBand]
    by_cases h : k = rig
    · subst h
      simp
    · rw [if_neg h]
      rw [if_neg (show ¬(some rig = some k) from
        fun hh => h (Option.some.inj hh).symm)]

/-- The organizing fold keyed lookup, generalized over the accumulator:
the value at `k` comes from the last record tagged `k`, else from the
accumulator. -/
theorem bandsGet_organizeAux (fields : List String) (rs : List JRecord)
    (acc : List (JVal × SRecord)) (k : JVal) :
    bandsGet
      (rs.foldl
        (fun bands_metadata m =>
          match m.get "RigCameraIndex" with
          | none => bands_metadata
          | some rig_index => insertBand bands_metadata rig_index (mkBandData fields m))
        acc) k =
      ((rs.reverse.find? fun r => r.get "RigCameraIndex" = some k).map
        (mkBandData fields)).or (bandsGet acc k) := by
  induction rs generalizing acc with
  | nil => simp
  | cons r rs ih =>
    rw [List.foldl_cons, ih, List.reverse_cons, List.find?_append]
    cases hf : rs.reverse.find? fun r => decide (r.get "RigCameraIndex" = some k) with
    | some x => simp [Option.or]
    | none =>
      rw [bandsGet_organizeStep]
      by_cases hp : r.get "RigCameraIndex" = some k <;>
        simp [hp, Option.or]

/-- `organizeBands` keyed lookup: last write wins, untagged records are
dropped. -/
theorem bandsGet_organizeBands (fields : List String) (rs : List JRecord) (k : JVal) :
    bandsGet (organizeBands fields rs) k =
      (rs.reverse.find? fun r => r.get "RigCameraIndex" = some k).map
        (mkBandData fields) := by
  unfold organizeBands
  rw [bandsGet_organizeAux]
  rw [show bandsGet [] k = none from rfl, Option.or_none]

/-- C6: on a successful batch output, the resulting mapping at each index
`k` is built from the **last** record in tool-output order whose
`RigCameraIndex` is `k` (later records overwrite earlier ones), and
records lacking the tag contribute nothing (an index no record carries maps
to nothing). -/
theorem c6_last_write_wins (env : ExifEnv) (fs : FS) (dp : String)
    (fields : List String) (maxn : Nat) (first_file : String)
    (rest : List String) (out : Stdout) (rs : List JRecord) (k : JVal)
    (hloc : locateBandFiles fs dp maxn = first_file :: rest)
    (hprobe : env ["-j", first_file] = .ret 0 out)
    (hbatch : env ("-j" :: first_file :: rest) = .ret 0 (.records rs)) :
    bandsGet (extract_multispec_bands env fs dp fields maxn).1 k =
      (rs.reverse.find? fun r => r.get "RigCameraIndex" = some k).map
        (mkBandData fields) := by
  unfold extract_multispec_bands
  rw [hloc]
  simp only []
  rw [hprobe]
  simp only []
  rw [if_neg (by simp)]
  rw [hbatch]
  simp only []
  rw [if_neg (by simp [Stdout.isBlank])]
  exact bandsGet_organizeBands fields rs k

/-- Witness for C6: two records collide on index 0 and one lacks the tag;
the mapping keeps the later record's data. -/
theorem c6_last_write_wins_witness :
    bandsGet (extract_multispec_bands wEnv2 wFS "d" DEFAULT_FIELDS 11).1 (.jint 0) =
      some (mkBandData DEFAULT_FIELDS
        [("SourceFile", .jstr "d/cam_2.tif"), ("RigCameraIndex", .jint 0),
         ("BandName", .jstr "Red")]) := by
  rw [c6_last_write_wins wEnv2 wFS "d" DEFAULT_FIELDS 11 "d/cam_1.tif"
    ["d/cam_2.tif"] (.records [[("SourceFile", .jstr "d/cam_1.tif")]]) wDupRecs
    (.jint 0) (by decide) (by decide) (by decide)]
  decide

/-- Membership after a dict-style insert. -/
theorem mem_insertBand (m : List (JVal × SRecord)) (k : JVal) (v : SRecord)
    (p : JVal × SRecord) (h : p ∈ insertBand m k v) : p ∈ m ∨ p = (k, v) := by
  induction m with
  | nil =>
    simp only [insertBand, List.mem_singleton] at h
    exact Or.inr h
  | cons a m ih =>
    simp only [insertBand] at h
    split at h
    · rename_i hk
      rcases List.mem_cons.mp h with h | h
      · subst hk
        exact Or.inr (by rw [h])
      · exact Or.inl (List.mem_cons_of_mem _ h)
    · rcases List.mem_cons.mp h with h | h
      · exact Or.inl (h ▸ List.mem_cons_self _ _)
      · rcases ih h with h | h
        · exact Or.inl (List.mem_cons_of_mem _ h)
        · exact Or.inr h

/-- Every value in the organized band mapping is a `mkBandData` record. -/
theorem organizeBands_values (fields : List String) (rs : List JRecord)
    (p : JVal × SRecord) (hp : p ∈ organizeBands fields rs) :
    ∃ r, p.2 = mkBandData fields r := by
  unfold organizeBands at hp
  suffices h : ∀ acc, (∀ q ∈ acc, ∃ r, (q : JVal × SRecord).2 = mkBandData fields r) →
      ∀ q ∈ rs.foldl
        (fun bands_metadata m =>
          match m.get "RigCameraIndex" with
          | none => bands_metadata
          | some rig_index => insertBand bands_metadata rig_index (mkBandData fields m))
        acc, ∃ r, (q : JVal × SRecord).2 = mkBandData fields r by
    exact h [] (by simp) p hp
  clear hp
  induction rs with
  | nil => intro acc hacc q hq; exact hacc q hq
  | cons m rs ih =>
    intro acc hacc q hq
    rw [List.foldl_cons] at hq
    refine ih _ ?_ q hq
    intro q' hq'
    cases hr : m.get "RigCameraIndex" with
    | none =>
      rw [hr] at hq'
      exact hacc q' hq'
    | some rig =>
      rw [hr] at hq'
      rcases mem_insertBand _ _ _ _ hq' with h | h
      · exact hacc q' h
      · exact ⟨m, by rw [h]⟩

/-- The shape of `extract_multispec_bands`' result: empty, or the organized
records of a successful batch. -/
theorem extract_bands_shape (env : ExifEnv) (fs : FS) (dp : String)
    (fields : List String) (maxn : Nat) :
    (extract_multispec_bands env fs dp fields maxn).1 = [] ∨
    ∃ rs, (extract_multispec_bands env fs dp fields maxn).1 =
      organizeBands fields rs := by
  unfold extract_multispec_bands
  dsimp only
  split
  · exact Or.inl rfl
  · split
    · exact Or.inl rfl
    · split
      · exact Or.inl rfl
      · split
        · exact Or.inl rfl
        · split
          · exact Or.inl rfl
          · split
            · exact Or.inr ⟨_, rfl⟩
            · exact Or.inl rfl

/-- The per-band record built from `DEFAULT_FIELDS` has no `Software` key. -/
theorem mkBandData_software_none (m : JRecord) :
    SRecord.get (mkBandData DEFAULT_FIELDS m) "Software" = none := rfl

/-- The per-band record built from `DEFAULT_FIELDS` has no `SwVersion` key. -/
theorem mkBandData_swversion_none (m : JRecord) :
    SRecord.get (mkBandData DEFAULT_FIELDS m) "SwVersion" = none := rfl

/-- C3: with the default field list, every record of
`extract_multispec_analysis` carries no `Software`/`SwVersion` value: the
cell is either absent (no bands found) or present with value `None` (bands
found, but the band records hold only `filename` plus the requested
fields, among which `Software`/`SwVersion` do not occur). -/
theorem c3_software_absent_default_fields (env : ExifEnv) (fs : FS)
    (plot_df : List VisitRow) (maxn : Nat) :
    ∀ rec ∈ extract_multispec_analysis env fs plot_df DEFAULT_FIELDS maxn,
      (ARecord.get rec "Software" = none ∨
        ARecord.get rec "Software" = some .pnone) ∧
      (ARecord.get rec "SwVersion" = none ∨
        ARecord.get rec "SwVersion" = some .pnone) := by
  intro rec hrec
  unfold extract_multispec_analysis at hrec
  obtain ⟨row, _, hrow⟩ := List.mem_map.mp hrec
  subst hrow
  unfold analysisRecord
  have hshape := extract_bands_shape env fs row.full_path DEFAULT_FIELDS maxn
  rcases hbl : (extract_multispec_bands env fs row.full_path DEFAULT_FIELDS maxn).1
    with _ | ⟨⟨k0, v0⟩, rest0⟩
  · exact ⟨Or.inl rfl, Or.inl rfl⟩
  · rcases hshape with hshape | ⟨rs, hshape⟩
    · rw [hbl] at hshape
      cases hshape
    · rw [hbl] at hshape
      have hmem : (k0, v0) ∈ organizeBands DEFAULT_FIELDS rs := by
        rw [← hshape]
        exact List.mem_cons_self _ _
      obtain ⟨r, hr⟩ := organizeBands_values DEFAULT_FIELDS rs _ hmem
      have hr' : v0 = mkBandData DEFAULT_FIELDS r := hr
      subst hr'
      exact ⟨Or.inr rfl, Or.inr rfl⟩

/-- Witness for C3 at a concrete visit whose directory yields two bands. -/
theorem c3_software_absent_default_fields_witness :
    (extract_multispec_analysis wEnv wFS wPlotDf DEFAULT_FIELDS 11).length = 1 ∧
    ∀ rec ∈ extract_multispec_analysis wEnv wFS wPlotDf DEFAULT_FIELDS 11,
      (ARecord.get rec "Software" = none ∨
        ARecord.get rec "Software" = some .pnone) ∧
      (ARecord.get rec "SwVersion" = none ∨
        ARecord.get rec "SwVersion" = some .pnone) :=
  ⟨by decide, c3_software_absent_default_fields wEnv wFS wPlotDf 11⟩

/-- String append is left-cancellative. -/
theorem str_append_left_cancel (s x y : String) (h : s ++ x = s ++ y) : x = y := by
  have hd : (s ++ x).data = (s ++ y).data := congrArg String.data h
  rw [String.data_append, String.data_append] at hd
  have hxy := List.append_cancel_left hd
  cases x with
  | mk xd =>
    cases y with
    | mk yd =>
      have hdd : xd = yd := by simpa using hxy
      rw [hdd]

/-- Soundness of the scan over an arbitrary plot list: every produced row
comes from a plot entry and an 8-digit, date-valid subdirectory entry. -/
theorem scan_row_sound (base : String) (l : List (String × Dir)) (r : VisitRow)
    (hr : r ∈ l.flatMap fun pd =>
      pd.2.subdirs.filterMap fun dd =>
        if isEightDigits dd.1 = true then
          (toDatetimeYYYYMMDD dd.1).map fun dt =>
            { plot_id := pd.1, visit_date := dt,
              full_path := base ++ "/" ++ pd.1 ++ "/" ++ dd.1 }
        else none) :
    ∃ pd ∈ l, ∃ dd ∈ pd.2.subdirs, isEightDigits dd.1 = true ∧
      toDatetimeYYYYMMDD dd.1 = some r.visit_date ∧ r.plot_id = pd.1 ∧
      r.full_path = base ++ "/" ++ pd.1 ++ "/" ++ dd.1 := by
  obtain ⟨pd, hpd, hr⟩ := List.mem_flatMap.mp hr
  obtain ⟨dd, hdd, hmk⟩ := List.mem_filterMap.mp hr
  split at hmk
  · rename_i h8
    obtain ⟨dt, hdt, hrr⟩ := Option.map_eq_some'.mp hmk
    subst hrr
    exact ⟨pd, hpd, dd, hdd, h8, hdt, rfl, rfl⟩
  · cases hmk

/-- A date list holding no entry named `x` contributes no row whose path
ends in `x`. -/
theorem scan_inner_count_zero (base p x : String) (dt : Date)
    (l : List (String × Dir)) (hx : x ∉ l.map fun dd => dd.1) :
    (l.filterMap fun dd =>
      if isEightDigits dd.1 = true then
        (toDatetimeYYYYMMDD dd.1).map fun d =>
          ({ plot_id := p, visit_date := d,
             full_path := base ++ "/" ++ p ++ "/" ++ dd.1 } : VisitRow)
      else none).count
        ({ plot_id := p, visit_date := dt,
           full_path := base ++ "/" ++ p ++ "/" ++ x } : VisitRow) = 0 := by
  rw [List.count_eq_zero]
  intro hmem
  obtain ⟨dd, hdd, hmk⟩ := List.mem_filterMap.mp hmem
  split at hmk
  · obtain ⟨d, _, hrr⟩ := Option.map_eq_some'.mp hmk
    have hpath := congrArg VisitRow.full_path hrr
    have hdx : dd.1 = x := str_append_left_cancel _ _ _ hpath
    exact hx (hdx ▸ List.mem_map_of_mem _ hdd)
  · cases hmk

/-- With pairwise-distinct date names, a valid date entry contributes
exactly one matching row. -/
theorem scan_inner_count_one (base p : String) (l : List (String × Dir))
    (dd : String × Dir) (dt : Date) (hnd : (l.map fun e => e.1).Nodup)
    (hdd : dd ∈ l) (h8 : isEightDigits dd.1 = true)
    (hdt : toDatetimeYYYYMMDD dd.1 = some dt) :
    (l.filterMap fun e =>
      if isEightDigits e.1 = true then
        (toDatetimeYYYYMMDD e.1).map fun d =>
          ({ plot_id := p, visit_date := d,
             full_path := base ++ "/" ++ p ++ "/" ++ e.1 } : VisitRow)
      else none).count
        ({ plot_id := p, visit_date := dt,
           full_path := base ++ "/" ++ p ++ "/" ++ dd.1 } : VisitRow) = 1 := by
  induction l with
  | nil => cases hdd
  | cons e l ih =>
    rw [List.map_cons, List.nodup_cons] at hnd
    rw [List.filterMap_cons]
    rcases List.mem_cons.mp hdd with heq | hmem
    · subst heq
      have hg : (if isEightDigits dd.1 = true then
          (toDatetimeYYYYMMDD dd.1).map fun d =>
            ({ plot_id := p, visit_date := d,
               full_path := base ++ "/" ++ p ++ "/" ++ dd.1 } : VisitRow)
        else none) =
          some { plot_id := p, visit_date := dt,
                 full_path := base ++ "/" ++ p ++ "/" ++ dd.1 } := by
        rw [if_pos h8, hdt]
        rfl
      rw [hg, List.count_cons_self,
        scan_inner_count_zero base p dd.1 dt l hnd.1]
    · have hdx : e.1 ≠ dd.1 := by
        intro hc
        exact hnd.1 (hc ▸ List.mem_map_of_mem _ hmem)
      have hcount := ih hnd.2 hmem
      cases hge : (if isEightDigits e.1 = true then
          (toDatetimeYYYYMMDD e.1).map fun d =>
            ({ plot_id := p, visit_date := d,
               full_path := base ++ "/" ++ p ++ "/" ++ e.1 } : VisitRow)
        else none) with
      | none => exact hcount
      | some b =>
        have hb : b.full_path = base ++ "/" ++ p ++ "/" ++ e.1 := by
          split at hge
          · obtain ⟨d, _, hrr⟩ := Option.map_eq_some'.mp hge
            rw [← hrr]
          · cases hge
        rw [List.count_cons_of_ne, hcount]
        intro hc
        have := congrArg VisitRow.full_path hc
        rw [hb] at this
        exact hdx (str_append_left_cancel _ _ _ this.symm)

/-- Plot entries other than `p` contribute no row with plot id `p`. -/
theorem scan_flatMap_count_zero (base p x : String) (dt : Date)
    (l : List (String × Dir)) (hp : p ∉ l.map fun e => e.1) :
    (l.flatMap fun pd =>
      pd.2.subdirs.filterMap fun dd =>
        if isEightDigits dd.1 = true then
          (toDatetimeYYYYMMDD dd.1).map fun d =>
            ({ plot_id := pd.1, visit_date := d,
               full_path := base ++ "/" ++ pd.1 ++ "/" ++ dd.1 } : VisitRow)
        else none).count
          ({ plot_id := p, visit_date := dt,
             full_path := base ++ "/" ++ p ++ "/" ++ x } : VisitRow) = 0 := by
  rw [List.count_eq_zero]
  intro hmem
  obtain ⟨pd, hpd, _, _, _, _, hpid, _⟩ := scan_row_sound base l _ hmem
  have hpp : p = pd.1 := hpid
  exact hp (hpp ▸ List.mem_map_of_mem _ hpd)

/-- C4 (amended): with distinct directory names (as on a real filesystem),
`parse_directory_structure` yields exactly one row — carrying the plot id,
the parsed date and the joined path — for every `PlotID/YYYYMMDD` pair
whose 8-digit name parses, i.e. is a valid calendar date within the
representable pandas `Timestamp` range (1677-09-22 through 2262-04-11);
every row it yields comes from such a pair (wrong digit counts,
non-calendar names and out-of-range dates are excluded); and when no valid
pair exists it returns the empty collection rather than an error. -/
theorem c4_scan_one_row_per_valid_date (base : String) (root : Dir)
    (hplots : (root.subdirs.map fun pd => pd.1).Nodup)
    (hdates : ∀ pd ∈ root.subdirs, (pd.2.subdirs.map fun dd => dd.1).Nodup) :
    (∀ pd ∈ root.subdirs, ∀ dd ∈ pd.2.subdirs, ∀ dt,
      isEightDigits dd.1 = true → toDatetimeYYYYMMDD dd.1 = some dt →
      (parse_directory_structure base root).count
        ({ plot_id := pd.1, visit_date := dt,
           full_path := base ++ "/" ++ pd.1 ++ "/" ++ dd.1 } : VisitRow) = 1) ∧
    (∀ r ∈ parse_directory_structure base root,
      ∃ pd ∈ root.subdirs, ∃ dd ∈ pd.2.subdirs, isEightDigits dd.1 = true ∧
        toDatetimeYYYYMMDD dd.1 = some r.visit_date ∧ r.plot_id = pd.1 ∧
        r.full_path = base ++ "/" ++ pd.1 ++ "/" ++ dd.1) ∧
    ((∀ pd ∈ root.subdirs, ∀ dd ∈ pd.2.subdirs,
        ¬(isEightDigits dd.1 = true ∧ (toDatetimeYYYYMMDD dd.1).isSome = true)) →
      parse_directory_structure base root = []) := by
  refine ⟨?_, ?_, ?_⟩
  · intro pd hpd dd hdd dt h8 hdt
    unfold parse_directory_structure
    have hpdnd := hdates pd hpd
    suffices h : ∀ l : List (String × Dir), (l.map fun e => e.1).Nodup → pd ∈ l →
        (l.flatMap fun pd =>
          pd.2.subdirs.filterMap fun dd =>
            if isEightDigits dd.1 = true then
              (toDatetimeYYYYMMDD dd.1).map fun dt =>
                ({ plot_id := pd.1, visit_date := dt,
                   full_path := base ++ "/" ++ pd.1 ++ "/" ++ dd.1 } : VisitRow)
            else none).count
              ({ plot_id := pd.1, visit_date := dt,
                 full_path := base ++ "/" ++ pd.1 ++ "/" ++ dd.1 } : VisitRow) = 1 by
      exact h root.subdirs hplots hpd
    intro l
    induction l with
    | nil =>
      intro _ hmem
      cases hmem
    | cons e l ih =>
      intro hnd hmem
      rw [List.flatMap_cons, List.count_append]
      rw [List.map_cons, List.nodup_cons] at hnd
      rcases List.mem_cons.mp hmem with heq | hmem
      · subst heq
        rw [scan_inner_count_one base pd.1 pd.2.subdirs dd dt hpdnd hdd h8 hdt,
          scan_flatMap_count_zero base pd.1 dd.1 dt l hnd.1]
      · have hne : e.1 ≠ pd.1 := fun hc => hnd.1 (hc ▸ List.mem_map_of_mem _ hmem)
        rw [ih hnd.2 hmem]
        have hz : (e.2.subdirs.filterMap fun dd =>
            if isEightDigits dd.1 = true then
              (toDatetimeYYYYMMDD dd.1).map fun dt =>
                ({ plot_id := e.1, visit_date := dt,
                   full_path := base ++ "/" ++ e.1 ++ "/" ++ dd.1 } : VisitRow)
            else none).count
              { plot_id := pd.1, visit_date := dt,
                full_path := base ++ "/" ++ pd.1 ++ "/" ++ dd.1 } = 0 := by
          rw [List.count_eq_zero]
          intro hm
          obtain ⟨dd', _, hmk⟩ := List.mem_filterMap.mp hm
          split at hmk
          · obtain ⟨d, _, hrr⟩ := Option.map_eq_some'.mp hmk
            exact hne (congrArg VisitRow.plot_id hrr)
          · cases hmk
        rw [hz]
  · intro r hr
    exact scan_row_sound base root.subdirs r hr
  · intro hnone
    rcases hres : parse_directory_structure base root with _ | ⟨r, rest⟩
    · rfl
    · exfalso
      have hr : r ∈ parse_directory_structure base root := by
        rw [hres]
        exact List.mem_cons_self _ _
      obtain ⟨pd, hpd, dd, hdd, h8, hdt, _, _⟩ :=
        scan_row_sound base root.subdirs r hr
      exact hnone pd hpd dd hdd ⟨h8, by rw [hdt]; rfl⟩

/-- C4 counterexample: `30000101` is an 8-digit valid calendar date, yet
the scan of a tree holding exactly `PlotA/30000101` yields no row at all —
`pd.to_datetime` raises `OutOfBoundsDatetime` (caught as `ValueError`, the
entry skipped with a warning) because the date exceeds the representable
`Timestamp` range — so the original "exactly one Visit per valid calendar
date" fails there. -/
theorem c4_counterexample :
    isEightDigits "30000101" = true ∧
    isCalendarDate 3000 1 1 = true ∧
    toDatetimeYYYYMMDD "30000101" = none ∧
    parse_directory_structure "base"
      (Dir.mk [] [("PlotA", .mk [] [("30000101", .mk [] [])])]) = [] := by
  refine ⟨by decide, by decide, by decide, by decide⟩

/-- Witness for C4 on the §8 example tree: `PlotA/20230101` yields exactly
one row, and the scan yields 2 rows in total (`PlotB/badname` excluded). -/
theorem c4_scan_one_row_per_valid_date_witness :
    (parse_directory_structure "base" wRoot).count
      ({ plot_id := "PlotA", visit_date := ⟨2023, 1, 1⟩,
         full_path := "base" ++ "/" ++ "PlotA" ++ "/" ++ "20230101" } : VisitRow) = 1 ∧
    (parse_directory_structure "base" wRoot).length = 2 := by
  constructor
  · exact (c4_scan_one_row_per_valid_date "base" wRoot (by decide) (by decide)).1
      ("PlotA", Dir.mk [] [("20230101", .mk [] []), ("20230615", .mk [] [])])
      (List.mem_cons_self _ _)
      ("20230101", Dir.mk [] [])
      (List.mem_cons_self _ _)
      ⟨2023, 1, 1⟩ (by decide) (by decide)
  · decide

/-- The foldl-with-guard accumulation of stage 2, as a `flatMap`. -/
theorem foldl_guard_append_eq_flatMap {α β : Type} (c : α → Bool) (g : α → List β)
    (l : List α) (init : List β) :
    l.foldl (fun acc x => if c x then acc ++ g x else acc) init =
      init ++ l.flatMap fun x => if c x then g x else [] := by
  induction l generalizing init with
  | nil => simp
  | cons x l ih =>
    rw [List.foldl_cons, List.flatMap_cons, ih]
    by_cases hc : c x = true
    · simp [hc]
    · simp [hc]

/-- C9: `extract_tif_metadata`'s search equals the spec's three stages —
the directory itself (non-recursive, reserved-suffix files excluded), then
the fixed subdirectory list accumulated across all of them, then the
recursive search excluding reserved-suffix files capped at the first 3
matches, each stage used only when every earlier one found nothing. -/
theorem c9_search_three_stages (fs : FS) (dp : String) :
    findTifFiles fs dp = findTifFilesSpec fs dp := by
  have hs1 : tifStage1 fs dp = (globTif fs dp).filter fun f => !isCog f := rfl
  have hs2 : tifStage2 fs dp =
      (["imagery", "rgb", "multispec", "level0_raw"] : List String).flatMap
        (fun subdir => if (fs (pjoin dp subdir)).isSome = true then
          (globTif fs (pjoin dp subdir)).filter fun f => !isCog f
        else []) := rfl
  have hs3 : tifStage3 fs dp =
      ((match fs dp with
        | none => []
        | some d => rglobTif d dp).filter fun f => !isCog f).take 3 := rfl
  unfold findTifFiles findTifFilesSpec
  dsimp only
  rw [foldl_guard_append_eq_flatMap
    (fun subdir => (fs (pjoin dp subdir)).isSome)
    (fun subdir => (globTif fs (pjoin dp subdir)).filter fun f => !isCog f)]
  rw [← hs1, ← hs2, ← hs3]
  generalize tifStage1 fs dp = s1
  generalize tifStage2 fs dp = s2
  generalize tifStage3 fs dp = s3
  cases s1 with
  | cons a t => simp
  | nil =>
    simp only [List.isEmpty_nil, if_true, List.nil_append, ne_eq,
      not_true_eq_false, if_false]
    cases s2 with
    | nil => simp
    | cons b t2 => simp

/-! ### Membership and `Except` helper lemmas for the BandAnalyzer -/

/-- Stable insertion preserves membership. -/
theorem mem_insertLe {α : Type} (le : α → α → Bool) (x y : α) (l : List α) :
    y ∈ insertLe le x l ↔ y = x ∨ y ∈ l := by
  induction l with
  | nil => simp [insertLe]
  | cons z l ih =>
    unfold insertLe
    split
    · rw [List.mem_cons, ih, List.mem_cons]
      tauto
    · simp only [List.mem_cons]

/-- Insertion sort preserves membership. -/
theorem mem_sortLe {α : Type} (le : α → α → Bool) (x : α) (l : List α) :
    x ∈ sortLe le l ↔ x ∈ l := by
  unfold sortLe
  suffices h : ∀ acc, x ∈ l.foldl (fun acc y => insertLe le y acc) acc ↔
      x ∈ acc ∨ x ∈ l by
    rw [h []]
    simp
  induction l with
  | nil => intro acc; simp
  | cons z l ih =>
    intro acc
    rw [List.foldl_cons, ih, mem_insertLe, List.mem_cons]
    tauto

/-- First-seen dedup preserves membership. -/
theorem mem_dedupSeen {α : Type} [DecidableEq α] (x : α) (l : List α) :
    x ∈ dedupSeen l ↔ x ∈ l := by
  unfold dedupSeen
  suffices h : ∀ acc, x ∈ l.foldl
      (fun acc y => if y ∈ acc then acc else acc ++ [y]) acc ↔
      x ∈ acc ∨ x ∈ l by
    rw [h []]
    simp
  induction l with
  | nil => intro acc; simp
  | cons z l ih =>
    intro acc
    rw [List.foldl_cons, ih]
    split
    · rename_i hz
      constructor
      · rintro (h | h)
        · exact Or.inl h
        · exact Or.inr (List.mem_cons_of_mem _ h)
      · rintro (h | h)
        · exact Or.inl h
        · rcases List.mem_cons.mp h with h | h
          · exact Or.inl (h ▸ hz)
          · exact Or.inr h
    · simp only [List.mem_append, List.mem_singleton, List.mem_cons]
      tauto

/-- Binding a success on the left of `Except.bind`. -/
theorem except_bind_ok {α β : Type} (a : α) (f : α → Except Unit β) :
    (Except.ok a >>= f) = f a := rfl

/-- Binding an error on the left of `Except.bind`. -/
theorem except_bind_error {α β : Type} (f : α → Except Unit β) :
    ((Except.error () : Except Unit α) >>= f) = Except.error () := rfl

/-- Inversion for a successful `mapM` over `Except`: every output element
is the successful image of some input element. -/
theorem mapM_ok_mem {α β : Type} (f : α → Except Unit β) (l : List α)
    (out : List β) (h : l.mapM f = .ok out) :
    ∀ y ∈ out, ∃ x ∈ l, f x = .ok y := by
  induction l generalizing out with
  | nil =>
    rw [List.mapM_nil] at h
    injection h with h
    subst h
    intro y hy
    cases hy
  | cons a l ih =>
    rw [List.mapM_cons] at h
    cases hfa : f a with
    | error e =>
      rw [hfa] at h
      cases h
    | ok b =>
      rw [hfa] at h
      cases hml : l.mapM f with
      | error e =>
        rw [hml, except_bind_ok, except_bind_error] at h
        cases h
      | ok bs =>
        rw [hml, except_bind_ok, except_bind_ok] at h
        injection h with h
        subst h
        intro y hy
        rcases List.mem_cons.mp hy with hy | hy
        · exact ⟨a, List.mem_cons_self _ _, hy ▸ hfa⟩
        · obtain ⟨x, hx, hfx⟩ := ih bs hml y hy
          exact ⟨x, List.mem_cons_of_mem _ hx, hfx⟩

/-- Every `value_counts` key occurs (non-null) in the series. -/
theorem mem_valueCounts (xs : List (Option JVal)) (p : JVal × Nat)
    (hp : p ∈ valueCounts xs) : some p.1 ∈ xs := by
  unfold valueCounts at hp
  rw [mem_sortLe] at hp
  obtain ⟨v, hv, hpv⟩ := List.mem_map.mp hp
  rw [mem_dedupSeen] at hv
  obtain ⟨a, ha, hav⟩ := List.mem_filterMap.mp hv
  have hv1 : v = p.1 := congrArg Prod.fst hpv
  have hav' : a = some v := hav
  rw [hav', hv1] at ha
  exact ha

/-- Inversion of a successful `Except` bind. -/
theorem except_ok_of_bind {α β : Type} {x : Except Unit α} {f : α → Except Unit β}
    {b : β} (h : (x >>= f) = .ok b) : ∃ a, x = .ok a ∧ f a = .ok b := by
  cases x with
  | error e => rw [except_bind_error] at h; cases h
  | ok a => rw [except_bind_ok] at h; exact ⟨a, rfl, h⟩

/-- A successful column access yields exactly the column's cells. -/
theorem seriesOf_ok {df : DFrame} {rows : List SRecord} {c : String}
    {s : List (Option JVal)} (h : seriesOf df rows c = .ok s) :
    s = rows.map fun r => SRecord.get r c := by
  unfold seriesOf at h
  split at h
  · injection h with h
    exact h.symm
  · cases h

/-- A summary row built for an observed band name carries a present modal
wavelength (the empty-series fallback to `None` is unreachable when some
row carries the name, and an all-null series raises instead of yielding
`None`). -/
theorem summaryRowForName_wavelength_isSome (df : DFrame)
    (version_rows : List SRecord) (version : JVal) (band_col band_idx : String)
    (band_name : JVal) (cnt : Nat) (row : SummaryRow)
    (hok : summaryRowForName df version_rows version band_col band_idx band_name
      cnt = .ok row)
    (hex : ∃ r ∈ version_rows, SRecord.get r band_col = some band_name) :
    row.centralWavelength.isSome = true := by
  unfold summaryRowForName at hok
  dsimp only at hok
  obtain ⟨wlSeries, h1, hok⟩ := except_ok_of_bind hok
  have hws := seriesOf_ok h1
  obtain ⟨r, hr, hget⟩ := hex
  have hfil : r ∈ version_rows.filter fun r' =>
      SRecord.get r' band_col = some band_name :=
    List.mem_filter.mpr ⟨hr, by simp [hget]⟩
  have hnemp : wlSeries.isEmpty = false := by
    rw [hws]
    cases hfl : version_rows.filter fun r' =>
        SRecord.get r' band_col = some band_name with
    | nil =>
      rw [hfl] at hfil
      cases hfil
    | cons a t => rfl
  rw [hnemp] at hok
  rw [if_neg (by simp)] at hok
  obtain ⟨m, hm, hok⟩ := except_ok_of_bind hok
  obtain ⟨wavelength, h2, hok⟩ := except_ok_of_bind hok
  have hwm : some m = wavelength := Except.ok.inj h2
  obtain ⟨fwhmSeries, h3, hok⟩ := except_ok_of_bind hok
  split at hok
  · obtain ⟨fwhm, h4, hok⟩ := except_ok_of_bind hok
    have hrec := Except.ok.inj hok
    have hcw : row.centralWavelength = wavelength := by
      rw [← hrec]
    rw [hcw, ← hwm]
    rfl
  · obtain ⟨m2, hm2, hok⟩ := except_ok_of_bind hok
    obtain ⟨fwhm, h4, hok⟩ := except_ok_of_bind hok
    have hrec := Except.ok.inj hok
    have hcw : row.centralWavelength = wavelength := by
      rw [← hrec]
    rw [hcw, ← hwm]
    rfl

/-- Every summary row one band column contributes has a present modal
wavelength. -/
theorem summaryRowsForCol_wavelength_isSome (df : DFrame)
    (version_rows : List SRecord) (version : JVal) (band_col : String)
    (lst : List SummaryRow)
    (hok : summaryRowsForCol df version_rows version band_col = .ok lst) :
    ∀ row ∈ lst, row.centralWavelength.isSome = true := by
  unfold summaryRowsForCol at hok
  dsimp only at hok
  intro row hrow
  obtain ⟨p, hp, hpok⟩ := mapM_ok_mem _ _ _ hok row hrow
  have hmv := mem_valueCounts _ _ hp
  obtain ⟨r, hr, hrg⟩ := List.mem_map.mp hmv
  exact summaryRowForName_wavelength_isSome _ _ _ _ _ _ _ _ hpok ⟨r, hr, hrg⟩

/-- Every row of a successfully produced comparison summary has a present
modal wavelength. -/
theorem compare_ok_wavelength_isSome (df : DFrame) (summary : List SummaryRow)
    (hok : compare_band_assignments df = .ok summary) :
    ∀ row ∈ summary, row.centralWavelength.isSome = true := by
  unfold compare_band_assignments at hok
  split at hok
  · have h := Except.ok.inj hok
    rw [← h]
    intro row hrow
    cases hrow
  · dsimp only at hok
    obtain ⟨nested, hm, hok⟩ := except_ok_of_bind hok
    intro row hrow
    have hrowflat : row ∈ nested.flatten := by
      split at hok
      · have h := Except.ok.inj hok
        rw [← h] at hrow
        exact hrow
      · have h := Except.ok.inj hok
        rw [← h] at hrow
        exact (mem_sortLe _ _ _).mp hrow
    obtain ⟨lst, hlst, hrowl⟩ := List.mem_flatten.mp hrowflat
    obtain ⟨version, hv, hvok⟩ := mapM_ok_mem _ _ _ hm lst hlst
    obtain ⟨colRows, hcm, hpure⟩ := except_ok_of_bind hvok
    have hflat := Except.ok.inj hpure
    rw [← hflat] at hrowl
    obtain ⟨lst2, hlst2, hrowl2⟩ := List.mem_flatten.mp hrowl
    obtain ⟨band_col, hbc, hbok⟩ := mapM_ok_mem _ _ _ hcm lst2 hlst2
    exact summaryRowsForCol_wavelength_isSome _ _ _ _ _ hbok row hrowl2

/-- The pivot grid cell is the group's first row aggregated by `value`:
present exactly when the `(software, index)` group exists and the
aggregate is non-null. -/
theorem pivotCell_pivotAgg (summary : List SummaryRow)
    (value : SummaryRow → Option JVal) (v : JVal) (c : String) :
    pivotCell (pivotAgg summary value) v c =
      ((summary.filter fun r => (r.software, r.rigCameraIndex) = (v, c)).head?).bind
        value := by
  unfold pivotCell pivotAgg
  dsimp only
  cases hw : ((summary.filter fun r =>
      (r.software, r.rigCameraIndex) = (v, c)).head?).bind value with
  | none =>
    rw [List.find?_eq_none.mpr ?hnone]
    · rfl
    case hnone =>
      intro e he
      simp only [decide_eq_true_eq]
      intro hpe
      obtain ⟨p, hp, hg⟩ := List.mem_filterMap.mp he
      obtain ⟨w', hw', hew⟩ := Option.map_eq_some'.mp hg
      subst hew
      have hpvc : p = (v, c) := hpe
      rw [hpvc] at hw'
      rw [hw] at hw'
      cases hw'
  | some w =>
    have hgne : (summary.filter fun r =>
        (r.software, r.rigCameraIndex) = (v, c)) ≠ [] := by
      intro hnil
      rw [hnil] at hw
      cases hw
    have hr0mem : ∃ r0 ∈ summary, (r0.software, r0.rigCameraIndex) = (v, c) := by
      rcases hgrp : summary.filter fun r =>
          (r.software, r.rigCameraIndex) = (v, c) with _ | ⟨r0, t0⟩
      · exact absurd hgrp hgne
      · have hmem : r0 ∈ summary.filter fun r =>
            (r.software, r.rigCameraIndex) = (v, c) := by
          rw [hgrp]
          exact List.mem_cons_self _ _
        have h := List.mem_filter.mp hmem
        exact ⟨r0, h.1, by simpa using h.2⟩
    obtain ⟨r0, hr0, hr0k⟩ := hr0mem
    have hpairs : (v, c) ∈ dedupSeen (summary.map fun r =>
        (r.software, r.rigCameraIndex)) := by
      rw [mem_dedupSeen]
      exact hr0k ▸ List.mem_map_of_mem _ hr0
    have hmem : ((v, c), w) ∈ (dedupSeen (summary.map fun r =>
        (r.software, r.rigCameraIndex))).filterMap fun p =>
          ((((summary.filter fun r =>
            (r.software, r.rigCameraIndex) = p).head?).bind value).map
              fun w => (p, w)) := by
      apply List.mem_filterMap.mpr
      refine ⟨(v, c), hpairs, ?_⟩
      rw [hw]
      rfl
    have hfind : ∃ e, ((dedupSeen (summary.map fun r =>
        (r.software, r.rigCameraIndex))).filterMap fun p =>
          ((((summary.filter fun r =>
            (r.software, r.rigCameraIndex) = p).head?).bind value).map
              fun w => (p, w))).find? (fun e => e.1 = (v, c)) = some e :=
      Option.isSome_iff_exists.mp (List.find?_isSome.mpr ⟨_, hmem, by simp⟩)
    obtain ⟨e, he⟩ := hfind
    have he1 : e.1 = (v, c) := by simpa using List.find?_some he
    have hemem := List.mem_of_find?_eq_some he
    obtain ⟨p, hp, hg⟩ := List.mem_filterMap.mp hemem
    obtain ⟨w', hw', hew⟩ := Option.map_eq_some'.mp hg
    subst hew
    have hpvc : p = (v, c) := he1
    subst hpvc
    rw [hw] at hw'
    have hww : w = w' := Option.some.inj hw'
    subst hww
    rw [he]
    rfl

/-- Membership in the pivot's row index, when every aggregated value is
present. -/
theorem mem_pivotAgg_index (summary : List SummaryRow)
    (value : SummaryRow → Option JVal) (v : JVal)
    (hv : ∀ r ∈ summary, (value r).isSome = true) :
    v ∈ (pivotAgg summary value).index ↔ ∃ r ∈ summary, r.software = v := by
  unfold pivotAgg
  dsimp only
  rw [mem_sortLe, mem_dedupSeen]
  constructor
  · intro h
    obtain ⟨e, he, hev⟩ := List.mem_map.mp h
    obtain ⟨p, hp, hg⟩ := List.mem_filterMap.mp he
    obtain ⟨w', hw', hew⟩ := Option.map_eq_some'.mp hg
    subst hew
    rw [mem_dedupSeen] at hp
    obtain ⟨r, hr, hrp⟩ := List.mem_map.mp hp
    refine ⟨r, hr, ?_⟩
    have h1 : r.software = p.1 := congrArg Prod.fst hrp
    rw [h1]
    exact hev
  · rintro ⟨r, hr, hrv⟩
    apply List.mem_map.mpr
    have hrfil : r ∈ summary.filter fun r' =>
        (r'.software, r'.rigCameraIndex) = (r.software, r.rigCameraIndex) :=
      List.mem_filter.mpr ⟨hr, by simp⟩
    rcases hgrp : summary.filter fun r' =>
        (r'.software, r'.rigCameraIndex) = (r.software, r.rigCameraIndex)
      with _ | ⟨r0, t0⟩
    · rw [hgrp] at hrfil
      cases hrfil
    · have hr0mem : r0 ∈ summary := by
        have hmem : r0 ∈ summary.filter fun r' =>
            (r'.software, r'.rigCameraIndex) = (r.software, r.rigCameraIndex) := by
          rw [hgrp]
          exact List.mem_cons_self _ _
        exact (List.mem_filter.mp hmem).1
      obtain ⟨w, hwv⟩ := Option.isSome_iff_exists.mp (hv r0 hr0mem)
      refine ⟨((r.software, r.rigCameraIndex), w), ?_, hrv⟩
      apply List.mem_filterMap.mpr
      refine ⟨(r.software, r.rigCameraIndex), ?_, ?_⟩
      · rw [mem_dedupSeen]
        exact List.mem_map_of_mem _ hr
      · rw [hgrp]
        rw [show ((r0 :: t0).head?).bind value = value r0 from rfl]
        rw [hwv]
        rfl

/-- Membership in the pivot's column index, when every aggregated value is
present. -/
theorem mem_pivotAgg_cols (summary : List SummaryRow)
    (value : SummaryRow → Option JVal) (c : String)
    (hv : ∀ r ∈ summary, (value r).isSome = true) :
    c ∈ (pivotAgg summary value).cols ↔ ∃ r ∈ summary, r.rigCameraIndex = c := by
  unfold pivotAgg
  dsimp only
  rw [mem_sortLe, mem_dedupSeen]
  constructor
  · intro h
    obtain ⟨e, he, hev⟩ := List.mem_map.mp h
    obtain ⟨p, hp, hg⟩ := List.mem_filterMap.mp he
    obtain ⟨w', hw', hew⟩ := Option.map_eq_some'.mp hg
    subst hew
    rw [mem_dedupSeen] at hp
    obtain ⟨r, hr, hrp⟩ := List.mem_map.mp hp
    refine ⟨r, hr, ?_⟩
    have h1 : r.rigCameraIndex = p.2 := congrArg Prod.snd hrp
    rw [h1]
    exact hev
  · rintro ⟨r, hr, hrv⟩
    apply List.mem_map.mpr
    have hrfil : r ∈ summary.filter fun r' =>
        (r'.software, r'.rigCameraIndex) = (r.software, r.rigCameraIndex) :=
      List.mem_filter.mpr ⟨hr, by simp⟩
    rcases hgrp : summary.filter fun r' =>
        (r'.software, r'.rigCameraIndex) = (r.software, r.rigCameraIndex)
      with _ | ⟨r0, t0⟩
    · rw [hgrp] at hrfil
      cases hrfil
    · have hr0mem : r0 ∈ summary := by
        have hmem : r0 ∈ summary.filter fun r' =>
            (r'.software, r'.rigCameraIndex) = (r.software, r.rigCameraIndex) := by
          rw [hgrp]
          exact List.mem_cons_self _ _
        exact (List.mem_filter.mp hmem).1
      obtain ⟨w, hwv⟩ := Option.isSome_iff_exists.mp (hv r0 hr0mem)
      refine ⟨((r.software, r.rigCameraIndex), w), ?_, hrv⟩
      apply List.mem_filterMap.mpr
      refine ⟨(r.software, r.rigCameraIndex), ?_, ?_⟩
      · rw [mem_dedupSeen]
        exact List.mem_map_of_mem _ hr
      · rw [hgrp]
        rw [show ((r0 :: t0).head?).bind value = value r0 from rfl]
        rw [hwv]
        rfl

/-- Looking up a cell of a grid laid out as a function of its key. -/
theorem tableCell_grid (index : List JVal) (cols : List String)
    (F : JVal → String → Cell) (v : JVal) (c : String)
    (hv : v ∈ index) (hc : c ∈ cols) :
    tableCell ⟨index, cols,
      index.flatMap fun v' => cols.map fun c' => ((v', c'), F v' c')⟩ v c =
      some (F v c) := by
  unfold tableCell
  dsimp only
  have hmem : ((v, c), F v c) ∈ index.flatMap fun v' =>
      cols.map fun c' => ((v', c'), F v' c') :=
    List.mem_flatMap.mpr ⟨v, hv, List.mem_map.mpr ⟨c, hc, rfl⟩⟩
  have hfind : ∃ e, (index.flatMap fun v' =>
      cols.map fun c' => ((v', c'), F v' c')).find?
        (fun e => e.1 = (v, c)) = some e :=
    Option.isSome_iff_exists.mp (List.find?_isSome.mpr ⟨_, hmem, by simp⟩)
  obtain ⟨e, he⟩ := hfind
  have he1 : e.1 = (v, c) := by simpa using List.find?_some he
  have hemem := List.mem_of_find?_eq_some he
  obtain ⟨v', hv', he2⟩ := List.mem_flatMap.mp hemem
  obtain ⟨c', hc', he3⟩ := List.mem_map.mp he2
  subst he3
  have hv2 : v' = v := congrArg Prod.fst he1
  have hc2 : c' = c := congrArg Prod.snd he1
  subst hv2
  subst hc2
  rw [he]
  rfl

/-- C2 counterexample: a comparison of two firmware versions observing
disjoint band indices yields a pivot grid with a cell that has no
observation, and `create_band_table` fills it with the string
`"nan (nan nm)"` (the `astype(str)` image of the missing values) rather
than leaving it empty. -/
theorem c2_counterexample :
    compare_band_assignments wBandDf = .ok wSummary ∧
    (wSummary.filter fun r =>
      (r.software, r.rigCameraIndex) = (.jstr "v2", "0")) = [] ∧
    create_band_table wBandDf = .ok wBt ∧
    tableCell wBt (.jstr "v2") "0" = some (.txt (some "nan (nan nm)")) := by
  refine ⟨by decide, by decide, by decide, by decide⟩

/-- C2 (amended): for every comparison table successfully produced by
`compare_band_assignments`, `create_band_table` pivots it into
firmware-version rows by band-index columns; every cell whose
`(version, index)` group has an observation is formatted as
`"{bandName} ({wavelength} nm)"` from the group's first summary row
(whose modal wavelength is always present), and every cell with no
observation contains the placeholder string `"nan (nan nm)"` rather than
remaining empty. -/
theorem c2_cells_formatted_or_nan (df : DFrame) (summary : List SummaryRow)
    (bt : BandTable)
    (hok : compare_band_assignments df = .ok summary)
    (hbt : create_band_table df = .ok bt)
    (v : JVal) (c : String) (hvi : v ∈ bt.index) (hci : c ∈ bt.cols) :
    (∀ r0, (summary.filter fun r =>
        (r.software, r.rigCameraIndex) = (v, c)).head? = some r0 →
      ∃ wl, r0.centralWavelength = some wl ∧
        tableCell bt v c = some (.txt (some
          (astypeStr (some r0.bandName) ++ " (" ++
            astypeStr (some wl) ++ " nm)")))) ∧
    ((summary.filter fun r => (r.software, r.rigCameraIndex) = (v, c)) = [] →
      tableCell bt v c = some (.txt (some "nan (nan nm)"))) := by
  have hL1 := compare_ok_wavelength_isSome df summary hok
  unfold create_band_table at hbt
  obtain ⟨s, hs, hbt⟩ := except_ok_of_bind hbt
  rw [hok] at hs
  have hss := Except.ok.inj hs
  subst hss
  split at hbt
  · have hbt' : (⟨[], [], []⟩ : BandTable) = bt := Except.ok.inj hbt
    rw [← hbt'] at hvi
    exact absurd hvi (List.not_mem_nil v)
  · have hbt' := Except.ok.inj hbt
    subst hbt'
    have hvi' : v ∈ (pivotAgg summary fun r => some r.bandName).index := hvi
    have hci' : c ∈ (pivotAgg summary fun r => some r.bandName).cols := hci
    have hTotalBand : ∀ r ∈ summary,
        ((fun r => some r.bandName) r).isSome = true := fun r _ => rfl
    have hvidx := (mem_pivotAgg_index summary _ v hTotalBand).mp hvi'
    have hcidx := (mem_pivotAgg_cols summary _ c hTotalBand).mp hci'
    have hvwl : v ∈ (pivotAgg summary fun r => r.centralWavelength).index :=
      (mem_pivotAgg_index summary _ v hL1).mpr hvidx
    have hcwl : c ∈ (pivotAgg summary fun r => r.centralWavelength).cols :=
      (mem_pivotAgg_cols summary _ c hL1).mpr hcidx
    have hcell := tableCell_grid
      (pivotAgg summary fun r => some r.bandName).index
      (pivotAgg summary fun r => some r.bandName).cols
      (fun v' c' =>
        if c' ∈ (pivotAgg summary fun r => r.centralWavelength).cols then
          if v' ∈ (pivotAgg summary fun r => r.centralWavelength).index then
            Cell.txt (some
              (astypeStr (pivotCell (pivotAgg summary fun r => some r.bandName)
                v' c') ++ " (" ++
               astypeStr (pivotCell
                 (pivotAgg summary fun r => r.centralWavelength) v' c') ++ " nm)"))
          else Cell.txt none
        else Cell.raw (pivotCell (pivotAgg summary fun r => some r.bandName) v' c'))
      v c hvi' hci'
    dsimp only at hcell
    rw [if_pos hcwl, if_pos hvwl] at hcell
    rw [pivotCell_pivotAgg, pivotCell_pivotAgg] at hcell
    constructor
    · intro r0 hr0
      have hr0mem : r0 ∈ summary := by
        rcases hgrp : summary.filter fun r =>
            (r.software, r.rigCameraIndex) = (v, c) with _ | ⟨g0, t0⟩
        · rw [hgrp] at hr0
          cases hr0
        · rw [hgrp] at hr0
          have hg0 : g0 = r0 := Option.some.inj hr0
          have hmem : g0 ∈ summary.filter fun r =>
              (r.software, r.rigCameraIndex) = (v, c) := by
            rw [hgrp]
            exact List.mem_cons_self _ _
          exact hg0 ▸ (List.mem_filter.mp hmem).1
      obtain ⟨wl, hwl⟩ := Option.isSome_iff_exists.mp (hL1 r0 hr0mem)
      refine ⟨wl, hwl, ?_⟩
      rw [hr0] at hcell
      rw [show ((some r0).bind fun r => some r.bandName) =
        some r0.bandName from rfl] at hcell
      rw [show ((some r0).bind fun r => r.centralWavelength) =
        r0.centralWavelength from rfl] at hcell
      rw [hwl] at hcell
      exact hcell
    · intro hnil
      rw [hnil] at hcell
      rw [show ((([] : List SummaryRow).head?).bind fun r => some r.bandName) =
        none from rfl] at hcell
      rw [show ((([] : List SummaryRow).head?).bind fun r => r.centralWavelength) =
        none from rfl] at hcell
      rw [show (astypeStr none ++ " (" ++ astypeStr none ++ " nm)") =
        "nan (nan nm)" from rfl] at hcell
      exact hcell

/-- Witness for C2 (amended) at the concrete frame: the observed cell
`(v1, 0)` is formatted, and the unobserved cell `(v2, 0)` holds the
placeholder string. -/
theorem c2_cells_formatted_or_nan_witness :
    (∃ wl, wSummaryRow1.centralWavelength = some wl ∧
      tableCell wBt (.jstr "v1") "0" = some (.txt (some
        (astypeStr (some wSummaryRow1.bandName) ++ " (" ++
          astypeStr (some wl) ++ " nm)")))) ∧
    tableCell wBt (.jstr "v2") "0" = some (.txt (some "nan (nan nm)")) := by
  constructor
  · exact (c2_cells_formatted_or_nan wBandDf wSummary wBt (by decide) (by decide)
      (.jstr "v1") "0" (by decide) (by decide)).1 wSummaryRow1 (by decide)
  · exact (c2_cells_formatted_or_nan wBandDf wSummary wBt (by decide) (by decide)
      (.jstr "v2") "0" (by decide) (by decide)).2 (by decide)

end Plots
